import Mathlib

/-!
Verification development for the bulk-data-import-export service.

The definitions below are a shallow embedding of the Go source of the
repository: the validators (`internal/service/validation`), the import
pipeline (`internal/service/import/parsers/format.go`), the staging
repository SQL (`internal/repository/postgres/staging_repo.go`), the
job repository (`internal/repository/postgres/job_repo.go`), the target
repositories (users / articles / comments batch upserts), the HTTP import
handler (`CreateImport`), the worker pool submission, and the progress
calculation (`Job.CalculateProgress` in `internal/domain/models`).

Strings are modelled with Lean `String`; Go byte lengths use UTF-8 byte
size; Go `int` counters are modelled with `Int`; machine timestamps are
kept as the raw RFC 3339 strings the pipeline actually carries (an absent
value standing for "assigned at write time").  Character-level helpers
model the ASCII behaviour of the Go standard library functions used by
the source (`strings.ToLower`, `strings.TrimSpace`, `unicode.IsSpace`,
`unicode.IsPunct`); all data handled by the claims is ASCII.
-/

deriving instance DecidableEq for Except

namespace BulkImport

/-- Character codes of the ASCII space characters recognised by Go
`unicode.IsSpace` (plus NEL and NBSP which Go also treats as space). -/
def goSpaceNats : List Nat := [9, 10, 11, 12, 13, 32, 133, 160]

/-- Model of Go `unicode.IsSpace` on the characters this code base meets. -/
def isGoSpace (c : Char) : Bool := goSpaceNats.contains c.toNat

/-- Character codes of the ASCII punctuation characters (Unicode category P)
recognised by Go `unicode.IsPunct`. -/
def goPunctNats : List Nat :=
  [33, 34, 35, 37, 38, 39, 40, 41, 42, 44, 45, 46, 47,
   58, 59, 63, 64, 91, 92, 93, 95, 123, 125]

/-- Model of Go `unicode.IsPunct` on ASCII input. -/
def isGoPunct (c : Char) : Bool := goPunctNats.contains c.toNat

/-- Model of Go `strings.ToLower` on one ASCII character. -/
def goToLowerChar (c : Char) : Char :=
  if 65 ≤ c.toNat ∧ c.toNat ≤ 90 then Char.ofNat (c.toNat + 32) else c

/-- Model of Go `strings.ToLower` on a character list. -/
def goLowerL (l : List Char) : List Char := l.map goToLowerChar

/-- Model of Go `strings.ToLower`. -/
def strLower (s : String) : String := String.mk (goLowerL s.data)

/-- Model of Go `strings.TrimSpace` on a character list. -/
def goTrimL (l : List Char) : List Char :=
  ((l.dropWhile isGoSpace).reverse.dropWhile isGoSpace).reverse

/-- Model of Go `strings.TrimSpace`. -/
def strTrim (s : String) : String := String.mk (goTrimL s.data)

/-- Model of Go `len` on a string: the UTF-8 byte length. -/
def goLen (s : String) : Nat := s.utf8ByteSize

/-- Model of Go `string(rune(n))` for a non-negative `n`: the UTF-8 string of
the single code point `n`, or U+FFFD when `n` is not a valid code point. -/
def goRuneString (n : Nat) : String :=
  if n < 55296 ∨ (57344 ≤ n ∧ n ≤ 1114111) then String.singleton (Char.ofNat n)
  else String.singleton (Char.ofNat 65533)

/-- Lower-case ASCII letter or digit: the character class `[a-z0-9]` of the
slug pattern in `ArticleValidator`. -/
def isKebabChar (c : Char) : Bool :=
  (97 ≤ c.toNat ∧ c.toNat ≤ 122) ∨ (48 ≤ c.toNat ∧ c.toNat ≤ 57)

/-- Matcher for the anchored pattern `[a-z0-9]+(-[a-z0-9]+)*` from
`validation.slugRegex`.  The flag is true when the next character must start
a new dash-separated part (at the beginning and right after a dash). -/
def slugAux : Bool → List Char → Bool
  | needPart, [] => !needPart
  | true, c :: rest => isKebabChar c && slugAux false rest
  | false, c :: rest =>
      if c = '-' then slugAux true rest else isKebabChar c && slugAux false rest

/-- Model of `ArticleValidator.IsValidSlug`: empty strings fail, otherwise the
kebab-case regular expression must match the whole string. -/
def isValidSlug (s : String) : Bool := slugAux true s.data

/-- Decimal digit test used by the timestamp and uuid models. -/
def isDigitChar (c : Char) : Bool := 48 ≤ c.toNat ∧ c.toNat ≤ 57

/-- Hexadecimal digit test used by the uuid model. -/
def isHexChar (c : Char) : Bool :=
  isDigitChar c ∨ (97 ≤ c.toNat ∧ c.toNat ≤ 102) ∨ (65 ≤ c.toNat ∧ c.toNat ≤ 70)

/-- Checker for the canonical 8-4-4-4-12 uuid layout: each group is the given
number of hex digits and groups are separated by single dashes. -/
def uuidGroupsOk (gs : List Nat) (l : List Char) : Bool :=
  match gs, l with
  | [], l => l.isEmpty
  | n :: ns, l =>
      let grp := l.take n
      let rest := l.drop n
      grp.length = n && grp.all isHexChar &&
        (match ns, rest with
         | [], r => r.isEmpty
         | _ :: _, '-' :: r => uuidGroupsOk ns r
         | _ :: _, _ => false)

/-- Model of `github.com/google/uuid.Parse` succeeding: the canonical 36-byte
form, the urn-prefixed form, the braced form, or 32 plain hex digits. -/
def goUUIDParseOk (s : String) : Bool :=
  let l := s.data
  if l.length = 36 then uuidGroupsOk [8, 4, 4, 4, 12] l
  else if l.length = 45 then
    strLower (String.mk (l.take 9)) = "urn:uuid:" &&
      uuidGroupsOk [8, 4, 4, 4, 12] (l.drop 9)
  else if l.length = 38 then
    l.head? = some (Char.ofNat 123) && l.getLast? = some (Char.ofNat 125) &&
      uuidGroupsOk [8, 4, 4, 4, 12] ((l.drop 1).take 36)
  else if l.length = 32 then l.all isHexChar
  else false

/-- Reads exactly two decimal digits, returning their value and the rest. -/
def parse2 : List Char → Option (Nat × List Char)
  | a :: b :: r =>
      if isDigitChar a ∧ isDigitChar b then
        some ((a.toNat - 48) * 10 + (b.toNat - 48), r)
      else none
  | _ => none

/-- Reads exactly four decimal digits, returning their value and the rest. -/
def parse4 (l : List Char) : Option (Nat × List Char) :=
  match parse2 l with
  | some (hi, r) =>
      match parse2 r with
      | some (lo, r2) => some (hi * 100 + lo, r2)
      | none => none
  | none => none

/-- Gregorian leap-year rule, as used by Go `time`. -/
def isLeapYear (y : Nat) : Bool := (y % 4 = 0 && y % 100 ≠ 0) || y % 400 = 0

/-- Days in a month, as validated by Go `time.Parse`. -/
def daysInMonth (y m : Nat) : Nat :=
  if m = 2 then (if isLeapYear y then 29 else 28)
  else if m = 4 ∨ m = 6 ∨ m = 9 ∨ m = 11 then 30
  else 31

/-- Consumes an optional fractional-second part: a dot followed by at least
one digit.  Returns none when a lone dot has no digits. -/
def fracPart : List Char → Option (List Char)
  | '.' :: r =>
      let digits := r.takeWhile isDigitChar
      if digits.isEmpty then none else some (r.dropWhile isDigitChar)
  | l => some l

/-- Checks the timezone tail of an RFC 3339 timestamp: `Z` or `±hh:mm`. -/
def tzOk : List Char → Bool
  | ['Z'] => true
  | s :: r =>
      (s = '+' ∨ s = '-') &&
        (match parse2 r with
         | some (h, ':' :: r2) =>
             (match parse2 r2 with
              | some (m, []) => h ≤ 23 && m ≤ 59
              | _ => false)
         | _ => false)
  | [] => false

/-- Model of Go `time.Parse(time.RFC3339, s)` succeeding: the strict layout
`yyyy-mm-ddThh:mm:ss` with optional fractional seconds and a `Z` or `±hh:mm`
offset, with all fields range-checked. -/
def goRFC3339Ok (s : String) : Bool :=
  match parse4 s.data with
  | some (y, '-' :: r1) =>
      (match parse2 r1 with
       | some (mo, '-' :: r2) =>
           (match parse2 r2 with
            | some (d, 'T' :: r3) =>
                (match parse2 r3 with
                 | some (h, ':' :: r4) =>
                     (match parse2 r4 with
                      | some (mi, ':' :: r5) =>
                          (match parse2 r5 with
                           | some (se, r6) =>
                               1 ≤ mo && mo ≤ 12 && 1 ≤ d && d ≤ daysInMonth y mo &&
                               h ≤ 23 && mi ≤ 59 && se ≤ 59 &&
                               (match fracPart r6 with
                                | some r7 => tzOk r7
                                | none => false)
                           | none => false)
                      | _ => false)
                 | _ => false)
            | _ => false)
       | _ => false)
  | _ => false

/-- Character class of the local part of `validation.emailRegex`:
`[a-zA-Z0-9._%+-]`. -/
def emailLocalChar (c : Char) : Bool :=
  (97 ≤ c.toNat ∧ c.toNat ≤ 122) ∨ (65 ≤ c.toNat ∧ c.toNat ≤ 90) ∨
    isDigitChar c ∨ [46, 95, 37, 43, 45].contains c.toNat

/-- Character class of the domain part of `validation.emailRegex`:
`[a-zA-Z0-9.-]`. -/
def emailDomainChar (c : Char) : Bool :=
  (97 ≤ c.toNat ∧ c.toNat ≤ 122) ∨ (65 ≤ c.toNat ∧ c.toNat ≤ 90) ∨
    isDigitChar c ∨ [46, 45].contains c.toNat

/-- ASCII letter test: the class `[a-zA-Z]` of the top-level-domain part. -/
def isAsciiLetter (c : Char) : Bool :=
  (97 ≤ c.toNat ∧ c.toNat ≤ 122) ∨ (65 ≤ c.toNat ∧ c.toNat ≤ 90)

/-- Splits a character list on a separator character, keeping empty
segments, like Go `strings.Split` on a one-byte separator. -/
def splitOnCharL (sep : Char) : List Char → List (List Char)
  | [] => [[]]
  | c :: rest =>
      if c = sep then [] :: splitOnCharL sep rest
      else
        match splitOnCharL sep rest with
        | [] => [[c]]
        | h :: t => (c :: h) :: t

/-- Domain side of the email pattern: `[a-zA-Z0-9.-]+\.[a-zA-Z]{2,}`
anchored at the end.  The suffix after the last dot must be at least two
letters and something nonempty must precede that dot. -/
def emailDomainOk (d : List Char) : Bool :=
  let segs := splitOnCharL '.' d
  d.all emailDomainChar && 2 ≤ segs.length &&
    (match segs.getLast? with
     | some tld => 2 ≤ tld.length && tld.all isAsciiLetter
     | none => false) &&
    (segs.length = 2 → segs.head? ≠ some [])

/-- Model of `validation.emailRegex.MatchString`: the anchored pattern
`[a-zA-Z0-9._%+-]+@[a-zA-Z0-9.-]+\.[a-zA-Z]{2,}`. -/
def goEmailMatch (s : String) : Bool :=
  match splitOnCharL '@' s.data with
  | [l, d] => !l.isEmpty && l.all emailLocalChar && emailDomainOk d
  | _ => false

/-- Model of `validation.countWords`: words are maximal runs of characters
that are neither spaces nor punctuation (`comment_validator.go`). -/
def countWordsAux : List Char → Bool → Nat
  | [], _ => 0
  | c :: rest, inWord =>
      if isGoSpace c || isGoPunct c then countWordsAux rest false
      else if inWord then countWordsAux rest true
      else countWordsAux rest true + 1

/-- Model of `validation.countWords` on a string. -/
def countWords (s : String) : Nat :=
  if s = "" then 0 else countWordsAux s.data false

/-- Raw user record as decoded from one input row
(`models.UserImport`). -/
structure UserImport where
  id : String
  email : String
  name : String
  role : String
  active : String
  createdAt : String
  updatedAt : String
deriving Repr, DecidableEq

/-- Raw article record as decoded from one input row
(`models.ArticleImport`); `tags` is `none` when the JSON field is absent. -/
structure ArticleImport where
  id : String
  slug : String
  title : String
  body : String
  authorID : String
  tags : Option (List String)
  publishedAt : String
  status : String
deriving Repr, DecidableEq

/-- Raw comment record as decoded from one input row
(`models.CommentImport`). -/
structure CommentImport where
  id : String
  articleID : String
  userID : String
  body : String
  createdAt : String
deriving Repr, DecidableEq

/-- One field-level validation error (`errors.ValidationError`). -/
structure ValidationErr where
  rowNumber : Nat
  recordIdentifier : String
  fieldName : String
  code : String
  message : String
deriving Repr, DecidableEq

/-- Shorthand constructor mirroring `errors.NewValidationError`. -/
def mkVErr (row : Nat) (recordID field code message : String) : ValidationErr :=
  ⟨row, recordID, field, code, message⟩

/-- Allowed user roles (`models.AllowedUserRoles`). -/
def allowedUserRoles : List String := ["admin", "reader", "author"]

/-- Allowed article statuses in the Go validator
(`models.AllowedArticleStatuses`). -/
def allowedArticleStatuses : List String := ["draft", "published", "archived"]

/-- Article statuses permitted by the `articles.status` CHECK constraint of
`migrations/001_initial_schema.sql`. -/
def dbAllowedArticleStatuses : List String := ["draft", "published"]

/-- Model of `UserValidator.ValidateUserImport`: the sequence of field
checks of `user_validator.go`, appending one error per failed check. -/
def validateUserImport (row : Nat) (u : UserImport) : List ValidationErr :=
  let identifier := if u.email = "" ∧ u.id ≠ "" then u.id else u.email
  (if u.id ≠ "" ∧ ¬goUUIDParseOk u.id then
    [mkVErr row identifier "id" "INVALID_UUID" "Invalid UUID format"] else [])
  ++ (if u.email = "" then
        [mkVErr row identifier "email" "MISSING_FIELD" "Email is required"]
      else if ¬goEmailMatch u.email then
        [mkVErr row identifier "email" "INVALID_EMAIL" "Invalid email format"]
      else [])
  ++ (if u.name = "" then
        [mkVErr row identifier "name" "MISSING_FIELD" "Name is required"]
      else if 255 < goLen u.name then
        [mkVErr row identifier "name" "INVALID_NAME"
          "Name must be at most 255 characters"]
      else [])
  ++ (if u.role = "" then
        [mkVErr row identifier "role" "MISSING_FIELD" "Role is required"]
      else if ¬allowedUserRoles.contains (strLower u.role) then
        [mkVErr row identifier "role" "INVALID_ROLE"
          "Role must be one of: admin, reader, author"]
      else [])
  ++ (if u.active ≠ "" ∧ strLower u.active ≠ "true" ∧ strLower u.active ≠ "false" then
        [mkVErr row identifier "active" "INVALID_BOOLEAN"
          "Active must be true or false"]
      else [])
  ++ (if u.createdAt ≠ "" ∧ ¬goRFC3339Ok u.createdAt then
        [mkVErr row identifier "created_at" "INVALID_TIMESTAMP"
          "Invalid timestamp format (expected ISO8601/RFC3339)"]
      else [])
  ++ (if u.updatedAt ≠ "" ∧ ¬goRFC3339Ok u.updatedAt then
        [mkVErr row identifier "updated_at" "INVALID_TIMESTAMP"
          "Invalid timestamp format (expected ISO8601/RFC3339)"]
      else [])

/-- Model of `ArticleValidator.ValidateArticleImport`: the sequence of field
checks of the article validator, appending one error per failed check. -/
def validateArticleImport (row : Nat) (a : ArticleImport) : List ValidationErr :=
  let identifier := if a.slug = "" ∧ a.id ≠ "" then a.id else a.slug
  (if a.id ≠ "" ∧ ¬goUUIDParseOk a.id then
    [mkVErr row identifier "id" "INVALID_UUID" "Invalid UUID format"] else [])
  ++ (if a.slug = "" then
        [mkVErr row identifier "slug" "MISSING_FIELD" "Slug is required"]
      else if ¬isValidSlug a.slug then
        [mkVErr row identifier "slug" "INVALID_SLUG"
          "Slug must be in kebab-case format (lowercase letters, numbers, and hyphens only)"]
      else if 255 < goLen a.slug then
        [mkVErr row identifier "slug" "INVALID_SLUG"
          "Slug must be at most 255 characters"]
      else [])
  ++ (if a.title = "" then
        [mkVErr row identifier "title" "MISSING_FIELD" "Title is required"]
      else if 500 < goLen a.title then
        [mkVErr row identifier "title" "INVALID_TITLE"
          "Title must be at most 500 characters"]
      else [])
  ++ (if a.body = "" then
        [mkVErr row identifier "body" "MISSING_FIELD" "Body is required"] else [])
  ++ (if a.authorID = "" then
        [mkVErr row identifier "author_id" "MISSING_FIELD" "Author ID is required"]
      else if ¬goUUIDParseOk a.authorID then
        [mkVErr row identifier "author_id" "INVALID_AUTHOR"
          "Invalid author UUID format"]
      else [])
  ++ (if a.status = "" then
        [mkVErr row identifier "status" "MISSING_FIELD" "Status is required"]
      else if ¬allowedArticleStatuses.contains (strLower a.status) then
        [mkVErr row identifier "status" "INVALID_STATUS"
          "Status must be one of: draft, published, archived"]
      else [])
  ++ (if strLower a.status = "draft" ∧ a.publishedAt ≠ "" then
        [mkVErr row identifier "published_at" "INVALID_PUBLISHED_AT"
          "Draft articles must not have a published_at date"]
      else [])
  ++ (if strLower a.status = "published" ∧ a.publishedAt = "" then
        [mkVErr row identifier "published_at" "MISSING_PUBLISHED_AT"
          "Published articles must have a published_at date"]
      else [])
  ++ (if a.publishedAt ≠ "" ∧ ¬goRFC3339Ok a.publishedAt then
        [mkVErr row identifier "published_at" "INVALID_TIMESTAMP"
          "Invalid timestamp format (expected ISO8601/RFC3339)"]
      else [])
  ++ (match a.tags with
      | none => []
      | some tags =>
          if tags ≠ [] then
            (if 100 < tags.length then
              [mkVErr row identifier "tags" "INVALID_TAGS" "Maximum 100 tags allowed"]
             else [])
            ++ (if tags.any (fun t => 50 < goLen t) then
                  [mkVErr row identifier "tags" "INVALID_TAGS"
                    "Each tag must be at most 50 characters"]
                else [])
          else [])

/-- Model of `CommentValidator.ValidateCommentImport`: the sequence of field
checks of `comment_validator.go`.  When the id field is empty the record
identifier is built with Go `string(rune(row))`. -/
def validateCommentImport (row : Nat) (c : CommentImport) : List ValidationErr :=
  let identifier := if c.id = "" then "row-" ++ goRuneString row else c.id
  (if c.id ≠ "" ∧ ¬goUUIDParseOk c.id then
    [mkVErr row identifier "id" "INVALID_UUID" "Invalid UUID format"] else [])
  ++ (if c.articleID = "" then
        [mkVErr row identifier "article_id" "MISSING_FIELD" "Article ID is required"]
      else if ¬goUUIDParseOk c.articleID then
        [mkVErr row identifier "article_id" "INVALID_ARTICLE"
          "Invalid article UUID format"]
      else [])
  ++ (if c.userID = "" then
        [mkVErr row identifier "user_id" "MISSING_FIELD" "User ID is required"]
      else if ¬goUUIDParseOk c.userID then
        [mkVErr row identifier "user_id" "INVALID_USER" "Invalid user UUID format"]
      else [])
  ++ (if c.body = "" then
        [mkVErr row identifier "body" "BODY_EMPTY" "Comment body is required"]
      else if 500 < countWords c.body then
        [mkVErr row identifier "body" "BODY_TOO_LONG"
          "Comment body exceeds maximum of 500 words"]
      else [])
  ++ (if c.createdAt ≠ "" ∧ ¬goRFC3339Ok c.createdAt then
        [mkVErr row identifier "created_at" "INVALID_TIMESTAMP"
          "Invalid timestamp format (expected ISO8601/RFC3339)"]
      else [])

/-- Row of the `staging_users` relation (`repository.StagingUser`), for one
job: the model keeps the rows of a single job, matching the job-id
partitioning of every staging statement. -/
structure StagingUser where
  stagingId : Nat
  rowNumber : Nat
  id : Option String
  email : Option String
  name : Option String
  role : Option String
  active : Option Bool
  createdAt : Option String
  updatedAt : Option String
  validationError : Option String
  isValid : Bool
  isDuplicate : Bool
  processed : Bool
deriving Repr, DecidableEq

/-- Row of the `staging_articles` relation (`repository.StagingArticle`). -/
structure StagingArticle where
  stagingId : Nat
  rowNumber : Nat
  id : Option String
  slug : Option String
  title : Option String
  body : Option String
  authorID : Option String
  tags : Option String
  publishedAt : Option String
  status : Option String
  validationError : Option String
  isValid : Bool
  isDuplicate : Bool
  processed : Bool
deriving Repr, DecidableEq

/-- Row of the `staging_comments` relation (`repository.StagingComment`). -/
structure StagingComment where
  stagingId : Nat
  rowNumber : Nat
  id : Option String
  articleID : Option String
  userID : Option String
  body : Option String
  createdAt : Option String
  validationError : Option String
  isValid : Bool
  isDuplicate : Bool
  processed : Bool
deriving Repr, DecidableEq

/-- The staging error text written for an unparseable line
(`errors.ErrCodeFileParseError + ": Invalid record format"`). -/
def fileParseErrMsg : String := "FILE_PARSE_ERROR: Invalid record format"

/-- Staging row built by the `processUser` closure of
`processUsersImport` for the input row number `row`; `none` stands for the
nil record the NDJSON parser hands over for a malformed line.  The staging
id equals the row number because the serial staging id is assigned in
arrival order and the model skips no lines. -/
def stageUser (row : Nat) (rec : Option UserImport) : StagingUser :=
  match rec with
  | none =>
      { stagingId := row, rowNumber := row, id := none, email := none,
        name := none, role := none, active := none, createdAt := none,
        updatedAt := none, validationError := some fileParseErrMsg,
        isValid := false, isDuplicate := false, processed := false }
  | some u =>
      let errs := validateUserImport row u
      { stagingId := row, rowNumber := row,
        id := if u.id ≠ "" then some u.id else none,
        email := if u.email ≠ "" then some (strLower (strTrim u.email)) else none,
        name := if u.name ≠ "" then some u.name else none,
        role := if u.role ≠ "" then some (strLower u.role) else none,
        active := if u.active ≠ "" then some (strLower u.active = "true") else none,
        createdAt := if u.createdAt ≠ "" then some u.createdAt else none,
        updatedAt := if u.updatedAt ≠ "" then some u.updatedAt else none,
        validationError :=
          match errs with
          | [] => none
          | e :: _ => some (e.code ++ ": " ++ e.message),
        isValid := errs.isEmpty, isDuplicate := false, processed := false }

/-- Validation errors accumulated by `processUser` for one row: nothing for
a parse error (only the staging row is flagged), the validator output for a
decoded record. -/
def stageUserErrs (row : Nat) (rec : Option UserImport) : List ValidationErr :=
  match rec with
  | none => []
  | some u => validateUserImport row u

/-- Slug normalisation inlined in `processArticlesImport`:
`strings.ToLower(strings.TrimSpace(slug))` then
`strings.ReplaceAll(slug, " ", "-")`. -/
def codeNormalizeSlug (s : String) : String :=
  String.mk ((goLowerL (goTrimL s.data)).map (fun c => if c = ' ' then '-' else c))

/-- Staging row built by the `processArticle` closure of
`processArticlesImport` for input row `row`. -/
def stageArticle (row : Nat) (rec : Option ArticleImport) : StagingArticle :=
  match rec with
  | none =>
      { stagingId := row, rowNumber := row, id := none, slug := none,
        title := none, body := none, authorID := none, tags := none,
        publishedAt := none, status := none,
        validationError := some fileParseErrMsg,
        isValid := false, isDuplicate := false, processed := false }
  | some a =>
      let errs := validateArticleImport row a
      { stagingId := row, rowNumber := row,
        id := if a.id ≠ "" then some a.id else none,
        slug := if a.slug ≠ "" then some (codeNormalizeSlug a.slug) else none,
        title := if a.title ≠ "" then some a.title else none,
        body := if a.body ≠ "" then some a.body else none,
        authorID := if a.authorID ≠ "" then some a.authorID else none,
        tags := a.tags.map (fun ts => String.intercalate "," ts),
        publishedAt := if a.publishedAt ≠ "" then some a.publishedAt else none,
        status := if a.status ≠ "" then some (strLower a.status) else none,
        validationError :=
          match errs with
          | [] => none
          | e :: _ => some (e.code ++ ": " ++ e.message),
        isValid := errs.isEmpty, isDuplicate := false, processed := false }

/-- Generic model of the three `MarkDuplicate...InBatch` UPDATE statements:
a row is marked when its deduplication key is non-null and some row of the
same job with a smaller staging id has an equal key.  NULL keys never
compare equal, as in SQL. -/
def markDupsBy (sid : α → Nat) (key : α → Option String) (mark : α → α)
    (rows : List α) : List α :=
  rows.map fun r =>
    match key r with
    | none => r
    | some k =>
        if rows.any (fun r2 => sid r2 < sid r && key r2 = some k) then mark r
        else r

/-- Deduplication key of a staged user: `LOWER(email)`
(`MarkDuplicateUsersInBatch` compares `LOWER(s2.email) = LOWER(s1.email)`). -/
def userDedupKey (s : StagingUser) : Option String := s.email.map strLower

/-- Flag update applied by `MarkDuplicateUsersInBatch`. -/
def markUserDup (s : StagingUser) : StagingUser :=
  { s with isDuplicate := true, isValid := false,
           validationError := some "DUPLICATE_EMAIL" }

/-- Model of `StagingRepository.MarkDuplicateUsersInBatch` restricted to the
rows of one job. -/
def markDupUsers (rows : List StagingUser) : List StagingUser :=
  markDupsBy (·.stagingId) userDedupKey markUserDup rows

/-- Deduplication key of a staged article: `LOWER(slug)`. -/
def articleDedupKey (s : StagingArticle) : Option String := s.slug.map strLower

/-- Flag update applied by `MarkDuplicateArticlesInBatch`. -/
def markArticleDup (s : StagingArticle) : StagingArticle :=
  { s with isDuplicate := true, isValid := false,
           validationError := some "DUPLICATE_SLUG" }

/-- Model of `StagingRepository.MarkDuplicateArticlesInBatch`. -/
def markDupArticles (rows : List StagingArticle) : List StagingArticle :=
  markDupsBy (·.stagingId) articleDedupKey markArticleDup rows

/-- Deduplication key of a staged comment: the id itself, compared exactly
(`MarkDuplicateCommentsInBatch` requires `s1.id IS NOT NULL` and
`s2.id = s1.id`). -/
def commentDedupKey (s : StagingComment) : Option String := s.id

/-- Flag update applied by `MarkDuplicateCommentsInBatch`. -/
def markCommentDup (s : StagingComment) : StagingComment :=
  { s with isDuplicate := true, isValid := false,
           validationError := some "DUPLICATE_ID" }

/-- Model of `StagingRepository.MarkDuplicateCommentsInBatch`. -/
def markDupComments (rows : List StagingComment) : List StagingComment :=
  markDupsBy (·.stagingId) commentDedupKey markCommentDup rows

/-- Survivor predicate of `GetValidStagingUsers`:
`is_valid AND NOT is_duplicate AND NOT processed`. -/
def survivingUsers (rows : List StagingUser) : List StagingUser :=
  rows.filter fun s => s.isValid && !s.isDuplicate && !s.processed

/-- Survivor predicate of `GetValidStagingArticles`. -/
def survivingArticles (rows : List StagingArticle) : List StagingArticle :=
  rows.filter fun s => s.isValid && !s.isDuplicate && !s.processed

/-- Survivor predicate of `GetValidStagingComments`. -/
def survivingComments (rows : List StagingComment) : List StagingComment :=
  rows.filter fun s => s.isValid && !s.isDuplicate && !s.processed

/-- Row of the target `users` relation (`models.User`).  The uuid is kept
as its string form; an absent timestamp stands for a value assigned at
write time (`time.Now()`). -/
structure UserRow where
  id : String
  email : String
  name : String
  role : String
  active : Bool
  createdAt : Option String
  updatedAt : Option String
deriving Repr, DecidableEq

/-- Row of the target `articles` relation (`models.Article`).  `tags` keeps
the serialized JSON text. -/
structure ArticleRow where
  id : String
  slug : String
  title : String
  body : String
  authorID : String
  tags : String
  publishedAt : Option String
  status : String
  createdAt : Option String
  updatedAt : Option String
deriving Repr, DecidableEq

/-- Row of the target `comments` relation (`models.Comment`). -/
structure CommentRow where
  id : String
  articleID : String
  userID : String
  body : String
  createdAt : Option String
deriving Repr, DecidableEq

/-- Column update of `UserRepository.CreateBatch` when the `ON CONFLICT (id)`
clause fires: every column except the id and `created_at` is overwritten by
the EXCLUDED (incoming) values. -/
def userConflictUpdate (t u : UserRow) : UserRow :=
  { t with email := u.email, name := u.name, role := u.role,
           active := u.active, updatedAt := u.updatedAt }

/-- One VALUES row of the `UserRepository.CreateBatch` INSERT: the conflict
target is the `id` column; an email equal to another row (the `users.email`
UNIQUE constraint of `migrations/001_initial_schema.sql`) aborts the
statement with a unique violation. -/
def usersUpsertOne (table : List UserRow) (u : UserRow) :
    Except String (List UserRow) :=
  if table.any (fun t => t.id = u.id) then
    if table.any (fun t => t.id ≠ u.id && t.email = u.email) then
      Except.error "unique violation users_email_key"
    else
      Except.ok (table.map fun t => if t.id = u.id then userConflictUpdate t u else t)
  else if table.any (fun t => t.email = u.email) then
    Except.error "unique violation users_email_key"
  else Except.ok (table ++ [u])

/-- Model of `UserRepository.CreateBatch`: one multi-row INSERT with
`ON CONFLICT (id) DO UPDATE`; the reported count is `RowsAffected`, which
for an upsert counts every VALUES row whether inserted or updated. -/
def usersCreateBatch (table : List UserRow) (batch : List UserRow) :
    Except String (List UserRow × Nat) :=
  match batch.foldlM usersUpsertOne table with
  | Except.error e => Except.error e
  | Except.ok t => Except.ok (t, batch.length)

/-- Column update of `ArticleRepository.CreateBatch` on an id conflict:
every column except the id and `created_at` is overwritten, including the
slug. -/
def articleConflictUpdate (t a : ArticleRow) : ArticleRow :=
  { t with slug := a.slug, title := a.title, body := a.body,
           authorID := a.authorID, tags := a.tags,
           publishedAt := a.publishedAt, status := a.status,
           updatedAt := a.updatedAt }

/-- One VALUES row of `ArticleRepository.CreateBatch`: conflict target `id`;
a slug clash with a different row (the `articles.slug` UNIQUE constraint)
aborts the statement. -/
def articlesUpsertOne (table : List ArticleRow) (a : ArticleRow) :
    Except String (List ArticleRow) :=
  if table.any (fun t => t.id = a.id) then
    if table.any (fun t => t.id ≠ a.id && t.slug = a.slug) then
      Except.error "unique violation articles_slug_key"
    else
      Except.ok (table.map fun t => if t.id = a.id then articleConflictUpdate t a else t)
  else if table.any (fun t => t.slug = a.slug) then
    Except.error "unique violation articles_slug_key"
  else Except.ok (table ++ [a])

/-- Model of `ArticleRepository.CreateBatch`. -/
def articlesCreateBatch (table : List ArticleRow) (batch : List ArticleRow) :
    Except String (List ArticleRow × Nat) :=
  match batch.foldlM articlesUpsertOne table with
  | Except.error e => Except.error e
  | Except.ok t => Except.ok (t, batch.length)

/-- Column update of `CommentRepository.CreateBatch` on an id conflict:
`article_id`, `user_id` and `body` are overwritten; `created_at` is kept. -/
def commentConflictUpdate (t c : CommentRow) : CommentRow :=
  { t with articleID := c.articleID, userID := c.userID, body := c.body }

/-- One VALUES row of `CommentRepository.CreateBatch`: conflict target `id`;
comments have no secondary unique constraint. -/
def commentsUpsertOne (table : List CommentRow) (c : CommentRow) :
    Except String (List CommentRow) :=
  if table.any (fun t => t.id = c.id) then
    Except.ok (table.map fun t => if t.id = c.id then commentConflictUpdate t c else t)
  else Except.ok (table ++ [c])

/-- Model of `CommentRepository.CreateBatch`. -/
def commentsCreateBatch (table : List CommentRow) (batch : List CommentRow) :
    Except String (List CommentRow × Nat) :=
  match batch.foldlM commentsUpsertOne table with
  | Except.error e => Except.error e
  | Except.ok t => Except.ok (t, batch.length)

/-- Model of `StagingRepository.MarkDuplicateUsersAgainstExisting`: a still
valid staged row whose lower-cased email already exists in `users` is marked
duplicate, unless its id matches the existing row. -/
def markDupUsersExisting (existing : List UserRow) (rows : List StagingUser) :
    List StagingUser :=
  rows.map fun s =>
    if s.isValid
        && (match s.email with
            | none => false
            | some e => existing.any fun u => strLower u.email = strLower e)
        && (match s.id with
            | none => true
            | some i => !(existing.any fun u => u.id = i)) then
      markUserDup s
    else s

/-- Deterministic stand-in for `uuid.New()` in
`convertStagingToUser`: the generated ids are distinguishable from any
client-supplied uuid text. -/
def genId (n : Nat) : String := "generated:" ++ Nat.repr n

/-- Model of `Service.convertStagingToUser`: fails only when a non-empty
staged id is not a parseable uuid; a timestamp that fails to parse falls
back to the write time (`none`). -/
def convertStagingToUser (su : StagingUser) : Option UserRow :=
  match su.id with
  | some i =>
      if i ≠ "" then
        if goUUIDParseOk i then
          some { id := i, email := su.email.getD "", name := su.name.getD "",
                 role := su.role.getD "", active := su.active.getD true,
                 createdAt := su.createdAt.bind
                   (fun t => if goRFC3339Ok t then some t else none),
                 updatedAt := su.updatedAt.bind
                   (fun t => if goRFC3339Ok t then some t else none) }
        else none
      else
        some { id := genId su.stagingId, email := su.email.getD "",
               name := su.name.getD "", role := su.role.getD "",
               active := su.active.getD true,
               createdAt := su.createdAt.bind
                 (fun t => if goRFC3339Ok t then some t else none),
               updatedAt := su.updatedAt.bind
                 (fun t => if goRFC3339Ok t then some t else none) }
  | none =>
      some { id := genId su.stagingId, email := su.email.getD "",
             name := su.name.getD "", role := su.role.getD "",
             active := su.active.getD true,
             createdAt := su.createdAt.bind
               (fun t => if goRFC3339Ok t then some t else none),
             updatedAt := su.updatedAt.bind
               (fun t => if goRFC3339Ok t then some t else none) }

/-- Fuel-driven worker for `chunksOf`; the fuel is an upper bound on the
list length, so the recursion is structural and computes by reduction. -/
def chunksOfFuel : Nat → Nat → List α → List (List α)
  | 0, _, _ => []
  | _ + 1, 0, _ => []
  | _ + 1, _ + 1, [] => []
  | fuel + 1, m + 1, x :: xs =>
      ((x :: xs).take (m + 1)) :: chunksOfFuel fuel (m + 1) ((x :: xs).drop (m + 1))

/-- Fixed-size batching of a list, as done by the staging cursor callbacks
(`GetValidStagingUsers` delivers batches of `batchSize`). -/
def chunksOf (n : Nat) (l : List α) : List (List α) := chunksOfFuel l.length n l

/-- Job lifecycle states (`models.JobStatus`). -/
inductive JobStatus where
  | pending
  | processing
  | completed
  | failed
  | cancelled
deriving Repr, DecidableEq

/-- Persisted counters and status of a `jobs` row (`models.Job`), with Go
`int` counters modelled by `Int`. -/
structure JobRec where
  status : JobStatus
  totalRecords : Int
  processedRecords : Int
  successfulRecords : Int
  failedRecords : Int
deriving Repr, DecidableEq

/-- Model of `JobRepository.UpdateProgress`: overwrites the three moving
counters. -/
def updateProgress (j : JobRec) (processed successful failed : Int) : JobRec :=
  { j with processedRecords := processed, successfulRecords := successful,
           failedRecords := failed }

/-- Model of `JobRepository.SetCompleted`: status, successful and failed are
written; `processed_records` is left as it was. -/
def setCompleted (j : JobRec) (successful failed : Int) : JobRec :=
  { j with status := JobStatus.completed, successfulRecords := successful,
           failedRecords := failed }

/-- Model of `JobRepository.SetFailed`: only the status (and the error
message, not modelled on the record) change; no counter is touched. -/
def setFailed (j : JobRec) : JobRec := { j with status := JobStatus.failed }

/-- One `job_errors` row (`models.JobError`) as written by
`recordValidationErrors`. -/
structure JobErrorRec where
  rowNumber : Nat
  recordIdentifier : Option String
  fieldName : Option String
  errorCode : String
  errorMessage : String
deriving Repr, DecidableEq

/-- Model of `Service.recordValidationErrors`: every accumulated validation
error becomes one `job_errors` row (the batched `AddErrors` calls insert all
of them). -/
def recordValidationErrors (errs : List ValidationErr) : List JobErrorRec :=
  errs.map fun e =>
    { rowNumber := e.rowNumber, recordIdentifier := some e.recordIdentifier,
      fieldName := some e.fieldName, errorCode := e.code,
      errorMessage := e.message }

/-- In-flight state of the first pass of `processUsersImport`: the staging
rows written so far, the accumulated validation errors, the local tallies,
the number of rows buffered since the last flush, and the persisted job
record as updated at flush boundaries. -/
structure Pass1State where
  job : JobRec
  staging : List StagingUser
  valErrs : List ValidationErr
  total : Nat
  valid : Nat
  invalid : Nat
  pending : Nat
deriving Repr, DecidableEq

/-- One iteration of the `processUser` closure: stage the row, update the
tallies, and on a full buffer flush the batch and persist the progress
counters (`UpdateProgress(ctx, id, totalRows, validRows, invalidRows)`). -/
def pass1UsersStep (batchSize : Nat) (st : Pass1State) (rec : Option UserImport) :
    Pass1State :=
  let row := st.total + 1
  let ok := match rec with
    | none => false
    | some u => (validateUserImport row u).isEmpty
  let st1 : Pass1State :=
    { st with staging := st.staging ++ [stageUser row rec],
              valErrs := st.valErrs ++ stageUserErrs row rec,
              total := row,
              valid := if ok then st.valid + 1 else st.valid,
              invalid := if ok then st.invalid else st.invalid + 1,
              pending := st.pending + 1 }
  if batchSize ≤ st1.pending then
    { st1 with pending := 0,
               job := updateProgress st1.job st1.total st1.valid st1.invalid }
  else st1

/-- First pass of `processUsersImport` over the decoded NDJSON stream: the
input list holds one entry per line, `none` for a line whose JSON the parser
could not decode.  The job starts in `processing` (`SetStarted`) with zeroed
counters (`jobs` column defaults). -/
def pass1Users (batchSize : Nat) (input : List (Option UserImport)) : Pass1State :=
  input.foldl (pass1UsersStep batchSize)
    { job := { status := JobStatus.processing, totalRecords := 0,
               processedRecords := 0, successfulRecords := 0, failedRecords := 0 },
      staging := [], valErrs := [], total := 0, valid := 0, invalid := 0,
      pending := 0 }

/-- Promotion loop of `processUsersImport` over the survivor batches: each
batch is converted (conversion failures are skipped) and handed to
`UserRepository.CreateBatch`; a repository error aborts with the rows
committed so far.  `promoteFails` injects a database error on the first
write, modelling the failure case of the repository contract. -/
def promoteUsersGo (promoteFails : Bool) :
    List (List StagingUser) → List UserRow × Nat →
      Except (String × List UserRow × Nat) (List UserRow × Nat)
  | [], acc => Except.ok acc
  | chunk :: rest, (tbl, n) =>
      let users := chunk.filterMap fun su =>
        if su.isValid && !su.isDuplicate then convertStagingToUser su else none
      if users.isEmpty then promoteUsersGo promoteFails rest (tbl, n)
      else if promoteFails then Except.error ("database connection error", tbl, n)
      else
        match usersCreateBatch tbl users with
        | Except.error e => Except.error (e, tbl, n)
        | Except.ok (tbl2, m) => promoteUsersGo promoteFails rest (tbl2, n + m)

/-- Outcome of one whole import job execution: the persisted job record, the
staging relation content, the error journal, the target relation, and the
total count the repository reported as written. -/
structure ImportRun where
  job : JobRec
  staging : List StagingUser
  journal : List JobErrorRec
  table : List UserRow
  inserted : Nat
deriving Repr, DecidableEq

/-- Model of a users import job driven to a terminal state:
`processUsersImport` (pass 1, `SetTotalRecords`, the two duplicate marking
statements, promotion, error journaling, staging cleanup, the final
`UpdateProgress(total, inserted, total−inserted)`) followed by the
`SetCompleted` call of `ProcessImport` on success, or by
`handleJobFailure` → `SetFailed` when promotion returns an error. -/
def runUsersImport (batchSize : Nat) (existing : List UserRow)
    (input : List (Option UserImport)) (promoteFails : Bool) : ImportRun :=
  let p := pass1Users batchSize input
  let j1 := { p.job with totalRecords := (p.total : Int) }
  let staged := markDupUsersExisting existing (markDupUsers p.staging)
  match promoteUsersGo promoteFails (chunksOf batchSize (survivingUsers staged))
      (existing, 0) with
  | Except.error (_, tbl, n) =>
      { job := setFailed j1, staging := staged, journal := [],
        table := tbl, inserted := n }
  | Except.ok (tbl, n) =>
      let j2 := updateProgress j1 (p.total : Int) (n : Int) ((p.total : Int) - (n : Int))
      { job := setCompleted j2 j2.successfulRecords j2.failedRecords,
        staging := [], journal := recordValidationErrors p.valErrs,
        table := tbl, inserted := n }

/-- Model of `Job.CalculateProgress` (`models.go`): the percentage is
`processed / total * 100` when `total > 0`, clamped to `99` only when it
reached `100` while the job is not yet completed or failed.  Real arithmetic
is modelled with exact rationals; the comparisons the claims exercise are
far from the rounding error of `float64`. -/
def calculateProgressPct (j : JobRec) : ℚ :=
  let pct : ℚ :=
    if 0 < j.totalRecords then
      (j.processedRecords : ℚ) / (j.totalRecords : ℚ) * 100
    else 0
  if 100 ≤ pct ∧ j.status ≠ JobStatus.completed ∧ j.status ≠ JobStatus.failed then 99
  else pct

/-- Stored job row as the import handler sees it (`models.Job` restricted to
what `CreateImport` reads and writes): id, status and the optional
idempotency key column of the `jobs` table. -/
structure HJob where
  jid : Nat
  status : JobStatus
  idemKey : Option String
deriving Repr, DecidableEq

/-- Row of the `idempotency_keys` relation as the repository uses it. -/
structure IdemRec where
  key : String
  jobId : Nat
  createdAt : Nat
  expiresAt : Nat
deriving Repr, DecidableEq

/-- State shared by the import handler and the worker pool: the `jobs`
relation, the `idempotency_keys` relation, the bounded import channel
(holding job ids) with its capacity, and the clock. -/
structure SysState where
  jobs : List HJob
  idemKeys : List IdemRec
  importQueue : List Nat
  queueCap : Nat
  now : Nat
deriving Repr, DecidableEq

/-- Columns of the `idempotency_keys` table created by
`migrations/001_initial_schema.sql`. -/
def idemTableColumns : List String :=
  ["id", "idempotency_key", "job_id", "status_code", "response_body",
   "created_at", "expires_at"]

/-- Column the repository filters on in `IdempotencyRepository.GetByKey`
(`SELECT * FROM idempotency_keys WHERE key = $1 AND expires_at > NOW()`). -/
def idemQueryColumn : String := "key"

/-- Columns `IdempotencyRepository.Create` inserts
(`INSERT INTO idempotency_keys (key, job_id, created_at, expires_at)`). -/
def idemInsertColumns : List String := ["key", "job_id", "created_at", "expires_at"]

/-- NOT NULL columns of `idempotency_keys` that have no default value. -/
def idemNotNullNoDefault : List String := ["idempotency_key", "job_id", "status_code"]

/-- Model of `IdempotencyRepository.GetByKey` as the handler consumes it.
When the store is operational it is the unexpired lookup the SQL describes,
returning `none` for no row.  When it is not operational (the deployed
schema has no `key` column, so the statement errors), the Go method returns
a non-nil pointer to a zero-valued record together with the error, and the
handler, which only logs the error, sees that zero record: this is modelled
by `some ⟨k, 0, 0, 0⟩`-like zero job id. -/
def getByKey (operational : Bool) (st : SysState) (k : String) : Option IdemRec :=
  if operational then
    st.idemKeys.find? fun r => r.key = k && decide (st.now < r.expiresAt)
  else some { key := "", jobId := 0, createdAt := 0, expiresAt := 0 }

/-- Model of `JobRepository.GetByID`. -/
def getJobById (st : SysState) (j : Nat) : Option HJob :=
  st.jobs.find? fun job => job.jid = j

/-- Model of `Pool.SubmitImportJob`: a non-blocking send on the bounded
channel of jobs; the boolean reports whether the job was enqueued
(`select` with a `default` branch returning the `queue is full` error). -/
def submitImportJob (st : SysState) (j : Nat) : SysState × Bool :=
  if st.importQueue.length < st.queueCap then
    ({ st with importQueue := st.importQueue ++ [j] }, true)
  else (st, false)

/-- Response of `CreateImport` reduced to what the claims observe: the HTTP
status and the `job_id` field (0 for error responses that carry none). -/
structure ImportResponse where
  httpStatus : Nat
  jobId : Nat
deriving Repr, DecidableEq

/-- Job-creation tail of `ImportHandler.CreateImport`: create the Job row
(`jobRepo.Create` fails with a unique violation on `jobs.idempotency_key`
when a job already carries the key, producing a 500 response), then store
the idempotency key — a step whose own failure is only logged, and which
always fails when the store is not operational —, then call
`SubmitImportJob` discarding its result, then answer `202 Accepted`. -/
def createImportNew (operational : Bool) (ttl : Nat) (st : SysState)
    (key : Option String) (newId : Nat) : SysState × ImportResponse :=
  match key with
  | some k =>
      if st.jobs.any (fun j => j.idemKey = some k) then
        (st, { httpStatus := 500, jobId := 0 })
      else
        let st1 := { st with jobs := st.jobs ++
          [({ jid := newId, status := JobStatus.pending, idemKey := some k } : HJob)] }
        let st2 :=
          if !operational || st1.idemKeys.any (fun r => r.key = k) then st1
          else { st1 with idemKeys := st1.idemKeys ++
            [({ key := k, jobId := newId, createdAt := st1.now,
                expiresAt := st1.now + ttl } : IdemRec)] }
        ((submitImportJob st2 newId).1, { httpStatus := 202, jobId := newId })
  | none =>
      let st1 := { st with jobs := st.jobs ++
        [({ jid := newId, status := JobStatus.pending, idemKey := none } : HJob)] }
      ((submitImportJob st1 newId).1, { httpStatus := 202, jobId := newId })

/-- Model of `ImportHandler.CreateImport`: when an `Idempotency-Key` header
is present and `GetByKey` hands back a record whose job exists, the stored
job is returned with `200 OK` and nothing is created; otherwise the handler
falls through to job creation. -/
def createImport (operational : Bool) (ttl : Nat) (st : SysState)
    (key : Option String) (newId : Nat) : SysState × ImportResponse :=
  match key with
  | some k =>
      (match getByKey operational st k with
       | some rec =>
           (match getJobById st rec.jobId with
            | some job => (st, { httpStatus := 200, jobId := job.jid })
            | none => createImportNew operational ttl st (some k) newId)
       | none => createImportNew operational ttl st (some k) newId)
  | none => createImportNew operational ttl st none newId

/-- Status transition applied when a worker finishes the job successfully
(`SetCompleted`), as seen through the handler state. -/
def completeJob (st : SysState) (j : Nat) : SysState :=
  { st with jobs := st.jobs.map fun job =>
      if job.jid = j then { job with status := JobStatus.completed } else job }

/-- Replaces every maximal run of characters satisfying `p` by the single
character `rep`. -/
def collapseRuns (p : Char → Bool) (rep : Char) : List Char → List Char
  | [] => []
  | [c] => if p c then [rep] else [c]
  | c :: d :: rest =>
      if p c && p d then collapseRuns p rep (d :: rest)
      else (if p c then rep else c) :: collapseRuns p rep (d :: rest)

/-- Slug normalisation as the specification words it: the slug lower-cased,
every run of spaces collapsed to a single dash, and every run of dashes
collapsed to a single dash.  This is the comparison definition for the
refinement claim about the staged slug; the code-side definition is
`codeNormalizeSlug`. -/
def specNormalizeSlug (s : String) : String :=
  String.mk (collapseRuns (fun c => c = '-') '-'
    (collapseRuns (fun c => c = ' ') '-' (goLowerL s.data)))

/-- Article record used to exhibit the archived-status acceptance: valid in
every field, with status `archived`. -/
def archivedArticle : ArticleImport :=
  { id := "", slug := "legacy-report", title := "Quarterly numbers",
    body := "All figures final.", authorID := "5864905b-ec8c-4fa6-8ba7-545d13f29b4e",
    tags := none, publishedAt := "", status := "archived" }

/-- C7.  For every article record whose status field equals `archived` (in
any letter case), `ValidateArticleImport` rejects it, i.e. returns a
non-empty error list for the status field.  This is FALSE of the code: the
validator checks membership in `models.AllowedArticleStatuses`, which
contains `archived`, so a fully valid record with status `archived` passes
validation with an empty error list — even though the `articles.status`
CHECK constraint of the repository's own migration only permits `draft` and
`published`, so the promoted batch would be rejected wholesale by the
database.  The claim (and the schema) state the intent; the validator is
the slip. -/
theorem archived_status_accepted_despite_db_check :
    validateArticleImport 2 archivedArticle = [] ∧
    validateArticleImport 2 { archivedArticle with status := "ArCHiVed" } = [] ∧
    allowedArticleStatuses.contains "archived" = true ∧
    dbAllowedArticleStatuses.contains "archived" = false := by
  refine ⟨?_, ?_, ?_, ?_⟩ <;> decide

/-- C8 counterexample.  A processing job with 199 of 200 records processed
reports 99.5 percent: the clamp in `CalculateProgress` only fires when the
raw percentage reaches 100, so the reported value exceeds 99 and the claim
`percentage ≤ 99 for every non-terminal job` is false. -/
theorem progress_exceeds_99_counterexample :
    ¬ (calculateProgressPct
        { status := JobStatus.processing, totalRecords := 200,
          processedRecords := 199, successfulRecords := 150,
          failedRecords := 49 } ≤ 99) := by
  norm_num [calculateProgressPct]

/-- C8 amended.  For every job whose status is neither completed nor failed,
the percentage returned by `CalculateProgress` is strictly less than 100,
for all values of the counters: either the raw ratio is below 100, or the
clamp replaces it by 99. -/
theorem progress_lt_100_before_terminal (j : JobRec)
    (hc : j.status ≠ JobStatus.completed) (hf : j.status ≠ JobStatus.failed) :
    calculateProgressPct j < 100 := by
  have key : ∀ q : ℚ,
      (if 100 ≤ q ∧ j.status ≠ JobStatus.completed ∧ j.status ≠ JobStatus.failed
       then (99 : ℚ) else q) < 100 := by
    intro q
    split_ifs with h
    · norm_num
    · exact not_le.mp fun hle => h ⟨hle, hc, hf⟩
  exact key _

/-- C8 amended, witness: a concrete processing job evaluates below 100. -/
theorem progress_lt_100_before_terminal_witness :
    calculateProgressPct
      { status := JobStatus.processing, totalRecords := 10,
        processedRecords := 5, successfulRecords := 4, failedRecords := 1 } < 100 :=
  progress_lt_100_before_terminal _ (by decide) (by decide)

/-- C10.  In `ValidateCommentImport`, whenever the comment id field is
empty, the record identifier attached to every returned validation error is
the string `row-` followed by the single character whose code point equals
the row number (Go `string(rune(row))`), not the decimal representation of
the row number. -/
theorem comment_record_identifier_uses_rune (row : Nat) (c : CommentImport)
    (h : c.id = "") :
    ∀ e ∈ validateCommentImport row c,
      e.recordIdentifier = "row-" ++ goRuneString row := by
  intro e he
  simp only [validateCommentImport, h, mkVErr, List.mem_append] at he
  split_ifs at he <;> (try simp_all) <;> casesm* _ ∨ _ <;> simp_all

/-- C10 witness: a comment with an empty id at row 50 produces errors whose
record identifier is `row-2` (code point 50), not `row-50`. -/
theorem comment_record_identifier_uses_rune_witness :
    (⟨"", "", "", "", ""⟩ : CommentImport).id = "" ∧
    (∀ e ∈ validateCommentImport 50 (⟨"", "", "", "", ""⟩ : CommentImport),
       e.recordIdentifier = "row-" ++ goRuneString 50) ∧
    "row-" ++ goRuneString 50 = "row-2" ∧ "row-" ++ goRuneString 50 ≠ "row-50" :=
  ⟨rfl, comment_record_identifier_uses_rune 50 _ rfl, by decide, by decide⟩

/-- Existing `users` row for the conflict-target counterexample. -/
def c1ExistingUser : UserRow :=
  { id := "aaaaaaaa-0000-4000-8000-000000000001", email := "dup@example.com",
    name := "Old", role := "reader", active := true, createdAt := none,
    updatedAt := none }

/-- Incoming batch row sharing the email but not the id. -/
def c1IncomingUser : UserRow :=
  { id := "bbbbbbbb-0000-4000-8000-000000000002", email := "dup@example.com",
    name := "New", role := "admin", active := true, createdAt := none,
    updatedAt := none }

/-- Existing `articles` row for the conflict-target counterexample. -/
def c1ExistingArticle : ArticleRow :=
  { id := "aaaaaaaa-0000-4000-8000-000000000003", slug := "shared-slug",
    title := "Old", body := "b", authorID := "aaaaaaaa-0000-4000-8000-000000000001",
    tags := "[]", publishedAt := none, status := "draft", createdAt := none,
    updatedAt := none }

/-- Incoming article batch row sharing the slug but not the id. -/
def c1IncomingArticle : ArticleRow :=
  { id := "bbbbbbbb-0000-4000-8000-000000000004", slug := "shared-slug",
    title := "New", body := "b2", authorID := "aaaaaaaa-0000-4000-8000-000000000001",
    tags := "[]", publishedAt := none, status := "draft", createdAt := none,
    updatedAt := none }

/-- C1 counterexample.  The claim says the users batch write resolves
conflicts on the email column and the articles batch write on slug or id.
Both `CreateBatch` statements actually target only the id column
(`ON CONFLICT (id) DO UPDATE`), so a batch row that collides with an
existing row on the natural key (email / slug) while carrying a different
id does not take any conflict path: it runs into the UNIQUE constraint and
the whole statement fails, instead of overwriting the existing row. -/
theorem upsert_on_natural_key_counterexample :
    usersCreateBatch [c1ExistingUser] [c1IncomingUser] =
      Except.error "unique violation users_email_key" ∧
    articlesCreateBatch [c1ExistingArticle] [c1IncomingArticle] =
      Except.error "unique violation articles_slug_key" ∧
    (∀ n, usersCreateBatch [c1ExistingUser] [c1IncomingUser] ≠
      Except.ok ([userConflictUpdate c1ExistingUser c1IncomingUser], n)) := by
  refine ⟨by decide, by decide, ?_⟩
  intro n h
  rw [show usersCreateBatch [c1ExistingUser] [c1IncomingUser] =
        Except.error "unique violation users_email_key" from by decide] at h
  exact Except.noConfusion h

/-- C1 amended.  The batch writes used by promotion resolve conflicts on the
id column for all three resources: when the incoming row's id matches an
existing row (and, for users and articles, its natural key collides with no
other row), the statement succeeds and overwrites the non-key columns of
the matching row with the incoming values, preserving `created_at`;
comments behave the same with no secondary constraint. -/
theorem batch_upsert_keyed_on_id :
    (∀ (ut : List UserRow) (u : UserRow),
       (∃ t ∈ ut, t.id = u.id) →
       (∀ t2 ∈ ut, t2.id ≠ u.id → t2.email ≠ u.email) →
       usersCreateBatch ut [u] =
         Except.ok
           (ut.map fun t2 => if t2.id = u.id then userConflictUpdate t2 u else t2, 1)) ∧
    (∀ (art : List ArticleRow) (a : ArticleRow),
       (∃ t ∈ art, t.id = a.id) →
       (∀ t2 ∈ art, t2.id ≠ a.id → t2.slug ≠ a.slug) →
       articlesCreateBatch art [a] =
         Except.ok
           (art.map fun t2 => if t2.id = a.id then articleConflictUpdate t2 a else t2, 1)) ∧
    (∀ (ct : List CommentRow) (c : CommentRow),
       (∃ t ∈ ct, t.id = c.id) →
       commentsCreateBatch ct [c] =
         Except.ok
           (ct.map fun t2 => if t2.id = c.id then commentConflictUpdate t2 c else t2, 1)) := by
  refine ⟨?_, ?_, ?_⟩
  · intro ut u hex hem
    obtain ⟨t, ht, hid⟩ := hex
    have h1 : ut.any (fun t2 => t2.id = u.id) = true :=
      List.any_eq_true.mpr ⟨t, ht, by simp [hid]⟩
    have h2 : ¬ ∃ x ∈ ut, ¬x.id = u.id ∧ x.email = u.email := by
      rintro ⟨x, hx, hne, heq⟩
      exact hem x hx hne heq
    simp [usersCreateBatch, usersUpsertOne, h1, h2]
  · intro art a hex hsl
    obtain ⟨t, ht, hid⟩ := hex
    have h1 : art.any (fun t2 => t2.id = a.id) = true :=
      List.any_eq_true.mpr ⟨t, ht, by simp [hid]⟩
    have h2 : ¬ ∃ x ∈ art, ¬x.id = a.id ∧ x.slug = a.slug := by
      rintro ⟨x, hx, hne, heq⟩
      exact hsl x hx hne heq
    simp [articlesCreateBatch, articlesUpsertOne, h1, h2]
  · intro ct c hex
    obtain ⟨t, ht, hid⟩ := hex
    have h1 : ct.any (fun t2 => t2.id = c.id) = true :=
      List.any_eq_true.mpr ⟨t, ht, by simp [hid]⟩
    simp [commentsCreateBatch, commentsUpsertOne, h1]

/-- C1 amended, witness: a one-row table and an id-matching incoming row for
each resource; the conflict path fires on the id and the non-key columns are
overwritten. -/
theorem batch_upsert_keyed_on_id_witness :
    usersCreateBatch [c1ExistingUser] [{ c1IncomingUser with id := c1ExistingUser.id }] =
      Except.ok
        ([c1ExistingUser].map fun t2 =>
          if t2.id = ({ c1IncomingUser with id := c1ExistingUser.id } : UserRow).id then
            userConflictUpdate t2 { c1IncomingUser with id := c1ExistingUser.id }
          else t2, 1) ∧
    commentsCreateBatch
        [({ id := "cccccccc-0000-4000-8000-000000000005",
            articleID := c1ExistingArticle.id, userID := c1ExistingUser.id,
            body := "old", createdAt := none } : CommentRow)]
        [({ id := "cccccccc-0000-4000-8000-000000000005",
            articleID := c1ExistingArticle.id, userID := c1ExistingUser.id,
            body := "new", createdAt := none } : CommentRow)] =
      Except.ok
        ([({ id := "cccccccc-0000-4000-8000-000000000005",
             articleID := c1ExistingArticle.id, userID := c1ExistingUser.id,
             body := "old", createdAt := none } : CommentRow)].map fun t2 =>
          if t2.id = "cccccccc-0000-4000-8000-000000000005" then
            commentConflictUpdate t2
              { id := "cccccccc-0000-4000-8000-000000000005",
                articleID := c1ExistingArticle.id, userID := c1ExistingUser.id,
                body := "new", createdAt := none }
          else t2, 1) :=
  ⟨batch_upsert_keyed_on_id.1 _ _ ⟨c1ExistingUser, by decide, by decide⟩
     (by decide),
   batch_upsert_keyed_on_id.2.2 _ _
     ⟨({ id := "cccccccc-0000-4000-8000-000000000005",
         articleID := c1ExistingArticle.id, userID := c1ExistingUser.id,
         body := "old", createdAt := none } : CommentRow), by decide, by decide⟩⟩

/-- C5.  The claim — two POSTs with the same `Idempotency-Key`, the second
after the first completed and before the key expires, yield the same job_id
with no second Job — is the intent of the handler logic (and of the README
feature list), but the shipped code breaks it: `IdempotencyRepository`
reads and writes a column named `key` and never supplies the NOT NULL
`status_code`, while `migrations/001_initial_schema.sql` names the column
`idempotency_key`, so both `GetByKey` and `Create` fail at runtime.
`GetByKey` then returns a non-nil zero-valued record together with the
error, the handler only logs the error, finds no job under the zero id and
falls through to creation, where the second insert violates the
`jobs.idempotency_key` UNIQUE constraint: the second request is answered
with 500 and a different (empty) job id instead of the first job's id. -/
theorem idempotency_replay_broken_by_schema :
    idemQueryColumn ∉ idemTableColumns ∧
    "status_code" ∈ idemNotNullNoDefault ∧ "status_code" ∉ idemInsertColumns ∧
    (let st0 : SysState := ⟨[], [], [], 100, 10⟩
     let r1 := createImport false 24 st0 (some "replay-key") 1
     let r2 := createImport false 24 (completeJob r1.1 1) (some "replay-key") 2
     r1.2.httpStatus = 202 ∧ r1.2.jobId = 1 ∧
     r2.2.httpStatus = 500 ∧ r2.2.jobId ≠ r1.2.jobId ∧
     r2.1.jobs = (completeJob r1.1 1).jobs) := by
  decide

/-- C9.  `CreateImport` discards the error of `Pool.SubmitImportJob`: when
the bounded import channel is full, the handler still answers
`202 Accepted` with the freshly created job, the job row stays `pending`,
and the channel — the only place workers receive jobs from — never holds
the job id, so no worker ever picks it up. -/
theorem queue_full_discards_submit_error (operational : Bool) (ttl : Nat)
    (st : SysState) (newId : Nat)
    (hfull : st.queueCap ≤ st.importQueue.length)
    (hfresh : ∀ j ∈ st.jobs, j.jid ≠ newId)
    (hq : newId ∉ st.importQueue) :
    (createImport operational ttl st none newId).2.httpStatus = 202 ∧
    (createImport operational ttl st none newId).2.jobId = newId ∧
    getJobById (createImport operational ttl st none newId).1 newId =
      some ⟨newId, JobStatus.pending, none⟩ ∧
    (createImport operational ttl st none newId).1.importQueue = st.importQueue ∧
    newId ∉ (createImport operational ttl st none newId).1.importQueue := by
  have hsub : ¬ st.importQueue.length < st.queueCap := not_lt.mpr hfull
  have hfind : st.jobs.find? (fun job => job.jid = newId) = none := by
    rw [List.find?_eq_none]
    intro j hj
    simp [hfresh j hj]
  refine ⟨rfl, rfl, ?_, ?_, ?_⟩
  · simp [createImport, createImportNew, getJobById, submitImportJob, hsub,
      List.find?_append, hfind]
  · simp [createImport, createImportNew, submitImportJob, hsub]
  · simp [createImport, createImportNew, submitImportJob, hsub]
    exact hq

/-- C9 witness: a two-slot channel already holding two jobs. -/
theorem queue_full_discards_submit_error_witness :
    (createImport true 24 (⟨[], [], [7, 8], 2, 0⟩ : SysState) none 9).2.httpStatus = 202 ∧
    (createImport true 24 (⟨[], [], [7, 8], 2, 0⟩ : SysState) none 9).2.jobId = 9 ∧
    getJobById (createImport true 24 (⟨[], [], [7, 8], 2, 0⟩ : SysState) none 9).1 9 =
      some ⟨9, JobStatus.pending, none⟩ ∧
    (createImport true 24 (⟨[], [], [7, 8], 2, 0⟩ : SysState) none 9).1.importQueue = [7, 8] ∧
    9 ∉ (createImport true 24 (⟨[], [], [7, 8], 2, 0⟩ : SysState) none 9).1.importQueue :=
  queue_full_discards_submit_error true 24 _ 9 (by decide) (by decide) (by decide)

/-- Valid user record driving the counter counterexample. -/
def c3User : UserImport :=
  { id := "aaaaaaaa-0000-4000-8000-000000000001", email := "alice@example.com",
    name := "Alice", role := "admin", active := "true", createdAt := "",
    updatedAt := "" }

/-- C3 counterexample.  A one-row import whose target batch write fails: the
job reaches the terminal state `failed` through `SetFailed`, which touches
no counter, so the job ends with `total_records = 1` but
`failed_records = 0 ≠ total − successful = 1`.  The claimed counter
identities only hold on the `completed` path. -/
theorem counters_at_failed_counterexample :
    (runUsersImport 1000 [] [some c3User] true).job.status = JobStatus.failed ∧
    (runUsersImport 1000 [] [some c3User] true).job.totalRecords = 1 ∧
    (runUsersImport 1000 [] [some c3User] true).job.successfulRecords = 0 ∧
    (runUsersImport 1000 [] [some c3User] true).inserted = 0 ∧
    ¬ ((runUsersImport 1000 [] [some c3User] true).job.failedRecords =
        (runUsersImport 1000 [] [some c3User] true).job.totalRecords -
          (runUsersImport 1000 [] [some c3User] true).job.successfulRecords) := by
  decide

/-- The first pass counts exactly the rows of the input stream. -/
theorem pass1Users_total (bs : Nat) (input : List (Option UserImport)) :
    (pass1Users bs input).total = input.length := by
  have step : ∀ (st : Pass1State) (rec : Option UserImport),
      (pass1UsersStep bs st rec).total = st.total + 1 := by
    intro st rec
    simp only [pass1UsersStep]
    split_ifs <;> rfl
  have gen : ∀ (l : List (Option UserImport)) (st : Pass1State),
      (l.foldl (pass1UsersStep bs) st).total = st.total + l.length := by
    intro l
    induction l with
    | nil => intro st; simp
    | cons x xs ih =>
        intro st
        simp only [List.foldl_cons, ih, step, List.length_cons]
        omega
  have h0 := gen input
    { job := { status := JobStatus.processing, totalRecords := 0,
               processedRecords := 0, successfulRecords := 0, failedRecords := 0 },
      staging := [], valErrs := [], total := 0, valid := 0, invalid := 0,
      pending := 0 }
  simpa [pass1Users] using h0

/-- C3 amended.  For every import job that reaches the terminal state
`completed`, the final counters satisfy `successful_records` = the count the
target repository reported as written, `failed_records = total_records −
successful_records`, `processed_records = successful_records +
failed_records`, and `total_records` equals the number of input rows.  (At
`failed` the counters keep whatever the last provisional update wrote, as
the counterexample shows.) -/
theorem counters_consistent_at_completed (bs : Nat) (existing : List UserRow)
    (input : List (Option UserImport)) (pf : Bool)
    (h : (runUsersImport bs existing input pf).job.status = JobStatus.completed) :
    (runUsersImport bs existing input pf).job.successfulRecords =
      ((runUsersImport bs existing input pf).inserted : Int) ∧
    (runUsersImport bs existing input pf).job.failedRecords =
      (runUsersImport bs existing input pf).job.totalRecords -
        (runUsersImport bs existing input pf).job.successfulRecords ∧
    (runUsersImport bs existing input pf).job.processedRecords =
      (runUsersImport bs existing input pf).job.successfulRecords +
        (runUsersImport bs existing input pf).job.failedRecords ∧
    (runUsersImport bs existing input pf).job.totalRecords = (input.length : Int) := by
  have htot := pass1Users_total bs input
  simp only [runUsersImport] at h ⊢
  cases hp : promoteUsersGo pf
      (chunksOf bs (survivingUsers
        (markDupUsersExisting existing (markDupUsers (pass1Users bs input).staging))))
      (existing, 0) with
  | error e =>
      rw [hp] at h
      simp [setFailed] at h
  | ok p =>
      obtain ⟨tbl, n⟩ := p
      rw [hp] at h
      refine ⟨rfl, rfl, ?_, by simp [updateProgress, setCompleted, htot]⟩
      simp only [setCompleted, updateProgress]
      omega

/-- C3 amended, witness: a successful two-row import completes with
consistent counters. -/
theorem counters_consistent_at_completed_witness :
    (runUsersImport 1000 [] [some c3User] false).job.successfulRecords =
      ((runUsersImport 1000 [] [some c3User] false).inserted : Int) ∧
    (runUsersImport 1000 [] [some c3User] false).job.failedRecords =
      (runUsersImport 1000 [] [some c3User] false).job.totalRecords -
        (runUsersImport 1000 [] [some c3User] false).job.successfulRecords ∧
    (runUsersImport 1000 [] [some c3User] false).job.processedRecords =
      (runUsersImport 1000 [] [some c3User] false).job.successfulRecords +
        (runUsersImport 1000 [] [some c3User] false).job.failedRecords ∧
    (runUsersImport 1000 [] [some c3User] false).job.totalRecords = (1 : Int) :=
  counters_consistent_at_completed 1000 [] [some c3User] false (by decide)

/-- The marking of `markDupsBy` preserves the deduplication key of every
element. -/
theorem markDupsBy_key_stable (sid : α → Nat) (key : α → Option String)
    (mark : α → α) (hkey : ∀ r, key (mark r) = key r) (rows : List α) (r : α) :
    key ((fun r => match key r with
      | none => r
      | some k =>
          if rows.any (fun r2 => sid r2 < sid r && key r2 = some k) then mark r
          else r) r) = key r := by
  cases hk : key r with
  | none => simp [hk]
  | some k =>
      simp only [hk]
      split_ifs with hc
      · rw [hkey, hk]
      · rw [hk]

/-- How one `MarkDuplicate...InBatch` statement acts on one key group: list
the rows whose key equals `some k` in staging order; the statement leaves
the first of them — the one with the minimum staging id — untouched, and
replaces every later one by its marked version. -/
theorem markDupsBy_group (sid : α → Nat) (key : α → Option String) (mark : α → α)
    (hkey : ∀ r, key (mark r) = key r) (rows : List α)
    (hsorted : rows.Pairwise (fun a b => sid a < sid b))
    (k : String) (first : α) (rest : List α)
    (hgrp : rows.filter (fun r => key r = some k) = first :: rest) :
    (markDupsBy sid key mark rows).filter (fun r => key r = some k) =
      first :: rest.map mark ∧
    (∀ s ∈ rest, sid first < sid s) := by
  set f : α → α := fun r =>
    match key r with
    | none => r
    | some k2 =>
        if rows.any (fun r2 => sid r2 < sid r && key r2 = some k2) then mark r
        else r with hf
  have hpair : (rows.filter (fun r => key r = some k)).Pairwise
      (fun a b => sid a < sid b) :=
    hsorted.sublist (List.filter_sublist rows)
  rw [hgrp] at hpair
  have hmin : ∀ s ∈ rest, sid first < sid s := (List.pairwise_cons.mp hpair).1
  have hfirstgrp : first ∈ rows.filter (fun r => key r = some k) := by
    rw [hgrp]; exact List.mem_cons_self _ _
  have hfirstmem : first ∈ rows := List.mem_of_mem_filter hfirstgrp
  have hfirstkey : key first = some k := by
    have := List.of_mem_filter hfirstgrp
    simpa using this
  have hrest : ∀ s ∈ rest, s ∈ rows ∧ key s = some k := by
    intro s hs
    have hsgrp : s ∈ rows.filter (fun r => key r = some k) := by
      rw [hgrp]; exact List.mem_cons_of_mem _ hs
    refine ⟨List.mem_of_mem_filter hsgrp, ?_⟩
    have := List.of_mem_filter hsgrp
    simpa using this
  have hcomm : (markDupsBy sid key mark rows).filter (fun r => key r = some k) =
      (rows.filter (fun r => key r = some k)).map f := by
    have heq : markDupsBy sid key mark rows = rows.map f := rfl
    rw [heq, List.filter_map]
    congr 1
    apply List.filter_congr
    intro r _
    have := markDupsBy_key_stable sid key mark hkey rows r
    rw [← hf] at this
    simp [Function.comp, this]
  have hffirst : f first = first := by
    have hany : rows.any (fun r2 => sid r2 < sid first && key r2 = some k) = false := by
      by_contra hne
      have hany2 : rows.any (fun r2 => sid r2 < sid first && key r2 = some k) = true := by
        revert hne
        cases rows.any (fun r2 => sid r2 < sid first && key r2 = some k) <;> simp
      obtain ⟨r2, hr2mem, hr2⟩ := List.any_eq_true.mp hany2
      have hlt : sid r2 < sid first := by
        have := hr2
        simp only [Bool.and_eq_true, decide_eq_true_eq] at this
        exact this.1
      have hk2 : key r2 = some k := by
        have := hr2
        simp only [Bool.and_eq_true, decide_eq_true_eq] at this
        exact this.2
      have hr2grp : r2 ∈ rows.filter (fun r => key r = some k) := by
        rw [List.mem_filter]
        exact ⟨hr2mem, by simp [hk2]⟩
      rw [hgrp] at hr2grp
      rcases List.mem_cons.mp hr2grp with rfl | hr2rest
      · exact lt_irrefl _ hlt
      · exact absurd hlt (not_lt.mpr (le_of_lt (hmin r2 hr2rest)))
    simp only [hf, hfirstkey, hany]
    simp
  have hfrest : ∀ s ∈ rest, f s = mark s := by
    intro s hs
    obtain ⟨hsmem, hskey⟩ := hrest s hs
    have hany : rows.any (fun r2 => sid r2 < sid s && key r2 = some k) = true :=
      List.any_eq_true.mpr ⟨first, hfirstmem, by simp [hmin s hs, hfirstkey]⟩
    simp only [hf, hskey, hany]
    simp
  refine ⟨?_, hmin⟩
  rw [hcomm, hgrp, List.map_cons, hffirst, List.map_congr_left hfrest]

/-- C4.  For every group of staged rows within one job that share the same
deduplication key — lower-cased email for users, lower-cased slug for
articles, the non-null id for comments — the in-batch duplicate marking
leaves exactly the row with the minimum staging id unmarked, and replaces
every other row of the group by its marked version with
`is_duplicate = true` and `is_valid = false`, which the survivor filter of
promotion (`is_valid AND NOT is_duplicate AND NOT processed`) then always
excludes.  Staging ids are strictly increasing in arrival order (serial
primary key), which the Pairwise hypotheses state. -/
theorem dedup_first_occurrence_survives :
    (∀ (rows : List StagingUser),
      rows.Pairwise (fun a b => a.stagingId < b.stagingId) →
      ∀ (k : String) (first : StagingUser) (rest : List StagingUser),
        rows.filter (fun r => userDedupKey r = some k) = first :: rest →
        (markDupUsers rows).filter (fun r => userDedupKey r = some k) =
            first :: rest.map markUserDup ∧
        (∀ s ∈ rest, first.stagingId < s.stagingId) ∧
        (∀ s ∈ rest.map markUserDup, s.isDuplicate = true ∧ s.isValid = false ∧
            s ∉ survivingUsers (markDupUsers rows))) ∧
    (∀ (rows : List StagingArticle),
      rows.Pairwise (fun a b => a.stagingId < b.stagingId) →
      ∀ (k : String) (first : StagingArticle) (rest : List StagingArticle),
        rows.filter (fun r => articleDedupKey r = some k) = first :: rest →
        (markDupArticles rows).filter (fun r => articleDedupKey r = some k) =
            first :: rest.map markArticleDup ∧
        (∀ s ∈ rest, first.stagingId < s.stagingId) ∧
        (∀ s ∈ rest.map markArticleDup, s.isDuplicate = true ∧ s.isValid = false ∧
            s ∉ survivingArticles (markDupArticles rows))) ∧
    (∀ (rows : List StagingComment),
      rows.Pairwise (fun a b => a.stagingId < b.stagingId) →
      ∀ (k : String) (first : StagingComment) (rest : List StagingComment),
        rows.filter (fun r => commentDedupKey r = some k) = first :: rest →
        (markDupComments rows).filter (fun r => commentDedupKey r = some k) =
            first :: rest.map markCommentDup ∧
        (∀ s ∈ rest, first.stagingId < s.stagingId) ∧
        (∀ s ∈ rest.map markCommentDup, s.isDuplicate = true ∧ s.isValid = false ∧
            s ∉ survivingComments (markDupComments rows))) := by
  refine ⟨?_, ?_, ?_⟩
  · intro rows hs k first rest hgrp
    obtain ⟨h1, h2⟩ := markDupsBy_group (·.stagingId) userDedupKey markUserDup
      (fun r => rfl) rows hs k first rest hgrp
    refine ⟨h1, h2, ?_⟩
    intro s hsm
    obtain ⟨r, _, rfl⟩ := List.mem_map.mp hsm
    refine ⟨rfl, rfl, ?_⟩
    intro hmem
    have := List.of_mem_filter hmem
    simp [markUserDup] at this
  · intro rows hs k first rest hgrp
    obtain ⟨h1, h2⟩ := markDupsBy_group (·.stagingId) articleDedupKey markArticleDup
      (fun r => rfl) rows hs k first rest hgrp
    refine ⟨h1, h2, ?_⟩
    intro s hsm
    obtain ⟨r, _, rfl⟩ := List.mem_map.mp hsm
    refine ⟨rfl, rfl, ?_⟩
    intro hmem
    have := List.of_mem_filter hmem
    simp [markArticleDup] at this
  · intro rows hs k first rest hgrp
    obtain ⟨h1, h2⟩ := markDupsBy_group (·.stagingId) commentDedupKey markCommentDup
      (fun r => rfl) rows hs k first rest hgrp
    refine ⟨h1, h2, ?_⟩
    intro s hsm
    obtain ⟨r, _, rfl⟩ := List.mem_map.mp hsm
    refine ⟨rfl, rfl, ?_⟩
    intro hmem
    have := List.of_mem_filter hmem
    simp [markCommentDup] at this

/-- Staged rows used by the dedup witness: two users sharing an email and a
third with a different one. -/
def c4Rows : List StagingUser :=
  [stageUser 1 (some ⟨"", "Dup@Example.com", "A", "admin", "", "", ""⟩),
   stageUser 2 (some ⟨"", "other@example.com", "B", "reader", "", "", ""⟩),
   stageUser 3 (some ⟨"", "dup@example.com", "C", "author", "", "", ""⟩)]

/-- C4 witness: in the three-row batch, the rows at staging ids 1 and 3
share the key `dup@example.com`; the statement keeps row 1 and marks row 3,
which no longer survives. -/
theorem dedup_first_occurrence_survives_witness :
    (markDupUsers c4Rows).filter
        (fun r => userDedupKey r = some "dup@example.com") =
      (c4Rows.get ⟨0, by decide⟩) :: [c4Rows.get ⟨2, by decide⟩].map markUserDup ∧
    (∀ s ∈ [c4Rows.get ⟨2, by decide⟩],
        (c4Rows.get ⟨0, by decide⟩).stagingId < s.stagingId) ∧
    (∀ s ∈ [c4Rows.get ⟨2, by decide⟩].map markUserDup,
        s.isDuplicate = true ∧ s.isValid = false ∧
        s ∉ survivingUsers (markDupUsers c4Rows)) :=
  dedup_first_occurrence_survives.1 c4Rows (by decide) "dup@example.com"
    (c4Rows.get ⟨0, by decide⟩) [c4Rows.get ⟨2, by decide⟩] (by decide)

/-- The staging rows pass 1 produces for a stream, starting after `k`
already-staged rows: one row per entry, numbered in arrival order. -/
def stagedUsersFrom (k : Nat) : List (Option UserImport) → List StagingUser
  | [] => []
  | r :: rest => stageUser (k + 1) r :: stagedUsersFrom (k + 1) rest

/-- The validation errors pass 1 accumulates for a stream, starting after
`k` already-staged rows. -/
def stagedErrsFrom (k : Nat) : List (Option UserImport) → List ValidationErr
  | [] => []
  | r :: rest => stageUserErrs (k + 1) r ++ stagedErrsFrom (k + 1) rest

/-- One pass-1 step appends exactly one staging row and that row's
validation errors; the flush branch touches neither. -/
theorem pass1UsersStep_fields (bs : Nat) (st : Pass1State) (rec : Option UserImport) :
    (pass1UsersStep bs st rec).staging = st.staging ++ [stageUser (st.total + 1) rec] ∧
    (pass1UsersStep bs st rec).valErrs = st.valErrs ++ stageUserErrs (st.total + 1) rec ∧
    (pass1UsersStep bs st rec).total = st.total + 1 := by
  simp only [pass1UsersStep]
  split_ifs <;> exact ⟨rfl, rfl, rfl⟩

/-- The staging relation after pass 1 holds exactly the staged form of every
input row, in order. -/
theorem pass1Users_staging_valErrs (bs : Nat) (input : List (Option UserImport)) :
    (pass1Users bs input).staging = stagedUsersFrom 0 input ∧
    (pass1Users bs input).valErrs = stagedErrsFrom 0 input := by
  have gen : ∀ (l : List (Option UserImport)) (st : Pass1State),
      (l.foldl (pass1UsersStep bs) st).staging =
        st.staging ++ stagedUsersFrom st.total l ∧
      (l.foldl (pass1UsersStep bs) st).valErrs =
        st.valErrs ++ stagedErrsFrom st.total l := by
    intro l
    induction l with
    | nil => intro st; simp [stagedUsersFrom, stagedErrsFrom]
    | cons x xs ih =>
        intro st
        obtain ⟨hsg, hve, htot⟩ := pass1UsersStep_fields bs st x
        obtain ⟨ih1, ih2⟩ := ih (pass1UsersStep bs st x)
        constructor
        · rw [List.foldl_cons, ih1, hsg, htot, stagedUsersFrom, List.append_assoc]
          rfl
        · rw [List.foldl_cons, ih2, hve, htot, stagedErrsFrom, List.append_assoc]
  obtain ⟨h1, h2⟩ := gen input
    { job := { status := JobStatus.processing, totalRecords := 0,
               processedRecords := 0, successfulRecords := 0, failedRecords := 0 },
      staging := [], valErrs := [], total := 0, valid := 0, invalid := 0,
      pending := 0 }
  exact ⟨by simpa [pass1Users] using h1, by simpa [pass1Users] using h2⟩

/-- Staged rows and errors distribute over stream concatenation. -/
theorem stagedUsersFrom_append (k : Nat) (xs ys : List (Option UserImport)) :
    stagedUsersFrom k (xs ++ ys) =
      stagedUsersFrom k xs ++ stagedUsersFrom (k + xs.length) ys := by
  induction xs generalizing k with
  | nil => simp [stagedUsersFrom]
  | cons x xs ih =>
      simp only [List.cons_append, stagedUsersFrom, List.append_eq, ih (k + 1),
        List.length_cons]
      have h : k + 1 + xs.length = k + (xs.length + 1) := by omega
      rw [h]

/-- Error accumulation distributes over stream concatenation. -/
theorem stagedErrsFrom_append (k : Nat) (xs ys : List (Option UserImport)) :
    stagedErrsFrom k (xs ++ ys) =
      stagedErrsFrom k xs ++ stagedErrsFrom (k + xs.length) ys := by
  induction xs generalizing k with
  | nil => simp [stagedErrsFrom]
  | cons x xs ih =>
      simp only [List.cons_append, stagedErrsFrom, List.append_eq, ih (k + 1),
        List.length_cons, List.append_assoc]
      have h : k + 1 + xs.length = k + (xs.length + 1) := by omega
      rw [h]

/-- One staged row per input row. -/
theorem stagedUsersFrom_length (k : Nat) (l : List (Option UserImport)) :
    (stagedUsersFrom k l).length = l.length := by
  induction l generalizing k with
  | nil => rfl
  | cons x xs ih => simp [stagedUsersFrom, ih]

/-- Casting a valid small code point back to a number is the identity. -/
theorem char_toNat_ofNat (n : Nat) (h : n < 55296) : (Char.ofNat n).toNat = n := by
  unfold Char.ofNat
  rw [dif_pos (Or.inl h)]
  rfl

/-- The ASCII lower-casing map is idempotent. -/
theorem goToLowerChar_idem (c : Char) :
    goToLowerChar (goToLowerChar c) = goToLowerChar c := by
  unfold goToLowerChar
  by_cases h : 65 ≤ c.toNat ∧ c.toNat ≤ 90
  · rw [if_pos h]
    have ht : (Char.ofNat (c.toNat + 32)).toNat = c.toNat + 32 :=
      char_toNat_ofNat _ (by omega)
    rw [if_neg (by omega)]
  · rw [if_neg h, if_neg h]

/-- Go `strings.ToLower` is idempotent (ASCII model). -/
theorem strLower_idem (s : String) : strLower (strLower s) = strLower s := by
  simp only [strLower, goLowerL, List.map_map]
  congr 1
  apply List.map_congr_left
  intro c _
  exact goToLowerChar_idem c

/-- A guarded singleton is empty exactly when the guard fails. -/
theorem ite_singleton_nil (c : Prop) [Decidable c] (e : ValidationErr) :
    ((if c then [e] else []) = []) ↔ ¬ c := by
  split_ifs with h <;> simp [h]

/-- A two-level guarded singleton is empty exactly when both guards fail. -/
theorem ite2_singleton_nil (c1 c2 : Prop) [Decidable c1] [Decidable c2]
    (e1 e2 : ValidationErr) :
    ((if c1 then [e1] else if c2 then [e2] else []) = []) ↔ ¬ c1 ∧ ¬ c2 := by
  split_ifs with h1 h2 <;> simp_all

/-- A three-level guarded singleton is empty exactly when all guards fail. -/
theorem ite3_singleton_nil (c1 c2 c3 : Prop) [Decidable c1] [Decidable c2]
    [Decidable c3] (e1 e2 e3 : ValidationErr) :
    ((if c1 then [e1] else if c2 then [e2] else if c3 then [e3] else []) = []) ↔
      ¬ c1 ∧ ¬ c2 ∧ ¬ c3 := by
  split_ifs with h1 h2 h3 <;> simp_all

/-- Field-level facts recovered from an empty user validator output. -/
theorem user_valid_facts (row : Nat) (u : UserImport)
    (h : validateUserImport row u = []) :
    (u.id ≠ "" → goUUIDParseOk u.id = true) ∧
    u.email ≠ "" ∧ goEmailMatch u.email = true ∧
    u.name ≠ "" ∧ u.role ≠ "" ∧
    (u.createdAt ≠ "" → goRFC3339Ok u.createdAt = true) ∧
    (u.updatedAt ≠ "" → goRFC3339Ok u.updatedAt = true) := by
  simp only [validateUserImport, List.append_eq_nil, ite_singleton_nil,
    ite2_singleton_nil] at h
  obtain ⟨⟨⟨⟨⟨⟨h1, h2⟩, h3⟩, h4⟩, h5⟩, h6⟩, h7⟩ := h
  refine ⟨?_, h2.1, ?_, h3.1, h4.1, ?_, ?_⟩
  · intro hne
    by_cases hu : goUUIDParseOk u.id = true
    · exact hu
    · exact absurd ⟨hne, by simpa using hu⟩ h1
  · by_cases he : goEmailMatch u.email = true
    · exact he
    · exact absurd (by simpa using he) h2.2
  · intro hne
    by_cases hc : goRFC3339Ok u.createdAt = true
    · exact hc
    · exact absurd ⟨hne, by simpa using hc⟩ h6
  · intro hne
    by_cases hc : goRFC3339Ok u.updatedAt = true
    · exact hc
    · exact absurd ⟨hne, by simpa using hc⟩ h7

/-- Success of the user validator does not depend on the row number. -/
theorem validateUserImport_nil_iff (row : Nat) (u : UserImport) :
    validateUserImport row u = [] ↔ validateUserImport 1 u = [] := by
  simp only [validateUserImport, List.append_eq_nil, ite_singleton_nil,
    ite2_singleton_nil]

/-- Converted target row of a validator-clean user record that carries an
explicit id, as promotion produces it. -/
def userRowOfImport (u : UserImport) : UserRow :=
  { id := u.id, email := strLower (strTrim u.email), name := u.name,
    role := strLower u.role,
    active := if u.active ≠ "" then (strLower u.active = "true" : Bool) else true,
    createdAt := if u.createdAt ≠ "" then some u.createdAt else none,
    updatedAt := if u.updatedAt ≠ "" then some u.updatedAt else none }

/-- Flags of a staged validator-clean record. -/
theorem stageUser_valid_flags (row : Nat) (u : UserImport)
    (h : validateUserImport row u = []) :
    (stageUser row (some u)).isValid = true ∧
    (stageUser row (some u)).isDuplicate = false ∧
    (stageUser row (some u)).processed = false ∧
    (stageUser row (some u)).validationError = none := by
  simp [stageUser, h]

/-- Deduplication key of a staged validator-clean record: the normalised
email (lower-casing is idempotent, so the SQL `LOWER` adds nothing). -/
theorem stageUser_key (row : Nat) (u : UserImport)
    (h : validateUserImport row u = []) :
    userDedupKey (stageUser row (some u)) = some (strLower (strTrim u.email)) := by
  obtain ⟨-, hemail, -⟩ := user_valid_facts row u h
  simp [userDedupKey, stageUser, hemail, strLower_idem]

/-- Conversion of a staged validator-clean record with an explicit id
succeeds and yields `userRowOfImport`. -/
theorem convert_staged_valid (row : Nat) (u : UserImport)
    (h : validateUserImport row u = []) (hid : u.id ≠ "") :
    convertStagingToUser (stageUser row (some u)) = some (userRowOfImport u) := by
  obtain ⟨hidok, hemail, -, hname, hrole, hca, hua⟩ := user_valid_facts row u h
  by_cases hact : u.active = "" <;> by_cases hcre : u.createdAt = "" <;>
    by_cases hupd : u.updatedAt = "" <;>
    simp [stageUser, h, convertStagingToUser, userRowOfImport, hid, hidok hid,
      hemail, hname, hrole, hact, hcre, hupd, hca, hua]

/-- Deduplication keys of the staged form of a validator-clean stream: the
normalised emails, in order. -/
theorem filterMap_key_staged (k : Nat) (l : List UserImport)
    (h : ∀ u ∈ l, validateUserImport 1 u = []) :
    (stagedUsersFrom k (l.map some)).filterMap userDedupKey =
      l.map fun u => strLower (strTrim u.email) := by
  induction l generalizing k with
  | nil => rfl
  | cons u us ih =>
      simp only [List.map_cons, stagedUsersFrom, List.filterMap_cons]
      rw [stageUser_key (k + 1) u ((validateUserImport_nil_iff _ u).mpr (h u (by simp)))]
      simp only [ih (k + 1) (fun v hv => h v (by simp [hv]))]

/-- In a list whose non-null keys are pairwise distinct, two rows with the
same key are the same row. -/
theorem eq_of_same_key_of_nodup (key : α → Option String) (rows : List α)
    (hnd : (rows.filterMap key).Nodup) :
    ∀ r ∈ rows, ∀ r2 ∈ rows, ∀ k, key r = some k → key r2 = some k → r = r2 := by
  induction rows with
  | nil => simp
  | cons x xs ih =>
      intro r hr r2 hr2 k hk hk2
      cases hx : key x with
      | none =>
          have hnd2 : (xs.filterMap key).Nodup := by
            simpa [List.filterMap_cons, hx] using hnd
          rcases List.mem_cons.mp hr with rfl | hr3 <;>
            rcases List.mem_cons.mp hr2 with rfl | hr4
          · rfl
          · rw [hx] at hk; cases hk
          · rw [hx] at hk2; cases hk2
          · exact ih hnd2 r hr3 r2 hr4 k hk hk2
      | some kx =>
          rw [show (x :: xs).filterMap key = kx :: xs.filterMap key by
            simp [List.filterMap_cons, hx]] at hnd
          have hnotin : kx ∉ xs.filterMap key := (List.nodup_cons.mp hnd).1
          have hnd2 := (List.nodup_cons.mp hnd).2
          rcases List.mem_cons.mp hr with rfl | hr3 <;>
            rcases List.mem_cons.mp hr2 with rfl | hr4
          · rfl
          · rw [hx] at hk
            injection hk with hkk
            subst hkk
            exact absurd (List.mem_filterMap.mpr ⟨r2, hr4, hk2⟩) hnotin
          · rw [hx] at hk2
            injection hk2 with hkk
            subst hkk
            exact absurd (List.mem_filterMap.mpr ⟨r, hr3, hk⟩) hnotin
          · exact ih hnd2 r hr3 r2 hr4 k hk hk2

/-- A duplicate-marking statement over rows with pairwise distinct non-null
keys marks nothing. -/
theorem markDupsBy_id_of_nodup_keys (sid : α → Nat) (key : α → Option String)
    (mark : α → α) (rows : List α) (hnd : (rows.filterMap key).Nodup) :
    markDupsBy sid key mark rows = rows := by
  have hrow : ∀ r ∈ rows,
      (fun r => match key r with
        | none => r
        | some k =>
            if rows.any (fun r2 => sid r2 < sid r && key r2 = some k) then mark r
            else r) r = r := by
    intro r hr
    cases hk : key r with
    | none => simp [hk]
    | some k =>
        simp only [hk]
        rw [if_neg]
        intro hany
        obtain ⟨r2, hr2, hcond⟩ := List.any_eq_true.mp hany
        simp only [Bool.and_eq_true, decide_eq_true_eq] at hcond
        have heq := eq_of_same_key_of_nodup key rows hnd r2 hr2 r hr k hcond.2 hk
        rw [heq] at hcond
        exact lt_irrefl _ hcond.1
  exact (List.map_congr_left (g := id) hrow).trans (List.map_id _)

/-- With an empty target relation, marking against existing rows is the
identity. -/
theorem markDupUsersExisting_nil (rows : List StagingUser) :
    markDupUsersExisting [] rows = rows := by
  unfold markDupUsersExisting
  refine (List.map_congr_left (g := id) ?_).trans (List.map_id _)
  intro s _
  cases hm : s.email <;> simp [hm]

/-- Staged validator-clean rows all pass the survivor filter. -/
theorem survivingUsers_staged_some (k : Nat) (l : List UserImport)
    (h : ∀ u ∈ l, validateUserImport 1 u = []) :
    survivingUsers (stagedUsersFrom k (l.map some)) =
      stagedUsersFrom k (l.map some) := by
  induction l generalizing k with
  | nil => rfl
  | cons u us ih =>
      have hu := (validateUserImport_nil_iff (k + 1) u).mpr (h u (by simp))
      obtain ⟨f1, f2, f3, -⟩ := stageUser_valid_flags (k + 1) u hu
      simp only [List.map_cons, stagedUsersFrom, survivingUsers, List.filter_cons]
      rw [if_pos (by simp [f1, f2, f3])]
      exact congrArg _ (ih (k + 1) fun v hv => h v (by simp [hv]))

/-- The staged form of an unparseable line never survives. -/
theorem survivingUsers_staged_none (row : Nat) :
    survivingUsers [stageUser row none] = [] := by
  simp [survivingUsers, stageUser]

/-- Conversion guard the promotion loop applies to each staged row. -/
def convGuard (su : StagingUser) : Option UserRow :=
  if su.isValid && !su.isDuplicate then convertStagingToUser su else none

/-- Staged validator-clean rows with explicit ids all convert, in order, to
their `userRowOfImport` images. -/
theorem filterMap_convGuard_staged (k : Nat) (l : List UserImport)
    (h : ∀ u ∈ l, validateUserImport 1 u = []) (hid : ∀ u ∈ l, u.id ≠ "") :
    (stagedUsersFrom k (l.map some)).filterMap convGuard =
      l.map userRowOfImport := by
  induction l generalizing k with
  | nil => rfl
  | cons u us ih =>
      have hu := (validateUserImport_nil_iff (k + 1) u).mpr (h u (by simp))
      obtain ⟨f1, f2, -, -⟩ := stageUser_valid_flags (k + 1) u hu
      have hc : convGuard (stageUser (k + 1) (some u)) = some (userRowOfImport u) := by
        unfold convGuard
        rw [f1, f2]
        simpa using convert_staged_valid (k + 1) u hu (hid u (by simp))
      simp only [List.map_cons, stagedUsersFrom, List.filterMap_cons, hc]
      exact congrArg _
        (ih (k + 1) (fun v hv => h v (by simp [hv])) (fun v hv => hid v (by simp [hv])))

/-- A batch whose ids and emails are fresh for the table and pairwise
distinct folds through `usersUpsertOne` as a plain append. -/
theorem foldlM_usersUpsertOne_fresh (batch : List UserRow) :
    ∀ tbl : List UserRow,
      ((tbl ++ batch).map (fun u => u.id)).Nodup →
      ((tbl ++ batch).map (fun u => u.email)).Nodup →
      batch.foldlM usersUpsertOne tbl = Except.ok (tbl ++ batch) := by
  induction batch with
  | nil =>
      intro tbl _ _
      rw [List.foldlM_nil, List.append_nil]
      rfl
  | cons u us ih =>
      intro tbl hids hemails
      have hid1 : tbl.any (fun t => t.id = u.id) = false := by
        rw [List.any_eq_false]
        intro t ht
        simp only [decide_eq_true_eq]
        intro hEq
        rw [List.map_append, List.nodup_append] at hids
        exact hids.2.2 (List.mem_map_of_mem _ ht) (by simp [hEq])
      have hem1 : tbl.any (fun t => t.email = u.email) = false := by
        rw [List.any_eq_false]
        intro t ht
        simp only [decide_eq_true_eq]
        intro hEq
        rw [List.map_append, List.nodup_append] at hemails
        exact hemails.2.2 (List.mem_map_of_mem _ ht) (by simp [hEq])
      have hstep : usersUpsertOne tbl u = Except.ok (tbl ++ [u]) := by
        unfold usersUpsertOne
        rw [hid1, hem1]
        simp
      rw [List.foldlM_cons, hstep]
      have hre : tbl ++ u :: us = (tbl ++ [u]) ++ us := by simp
      rw [hre] at hids hemails ⊢
      exact ih (tbl ++ [u]) hids hemails

/-- `UserRepository.CreateBatch` on fresh rows: every VALUES row is
inserted and `RowsAffected` is the batch length. -/
theorem usersCreateBatch_fresh (tbl batch : List UserRow)
    (hids : ((tbl ++ batch).map (fun u => u.id)).Nodup)
    (hemails : ((tbl ++ batch).map (fun u => u.email)).Nodup) :
    usersCreateBatch tbl batch = Except.ok (tbl ++ batch, batch.length) := by
  unfold usersCreateBatch
  rw [foldlM_usersUpsertOne_fresh batch tbl hids hemails]

/-- Joining the fuel-driven chunks recovers the list once the fuel covers
its length. -/
theorem chunksOfFuel_flatten (fuel : Nat) : ∀ (m : Nat) (l : List α),
    l.length ≤ fuel → (chunksOfFuel fuel (m + 1) l).flatten = l := by
  induction fuel with
  | zero =>
      intro m l hl
      have h0 : l = [] := List.eq_nil_of_length_eq_zero (Nat.le_zero.mp hl)
      subst h0
      rfl
  | succ fuel ih =>
      intro m l hl
      cases l with
      | nil => rfl
      | cons x xs =>
          simp only [chunksOfFuel, List.flatten_cons]
          rw [ih m ((x :: xs).drop (m + 1))
            (by simp only [List.length_drop, List.length_cons]
                simp only [List.length_cons] at hl
                omega)]
          exact List.take_append_drop (m + 1) (x :: xs)

/-- Batching then joining is the identity for a positive batch size. -/
theorem chunksOf_flatten (n : Nat) (hn : 0 < n) (l : List α) :
    (chunksOf n l).flatten = l := by
  cases n with
  | zero => omega
  | succ m => exact chunksOfFuel_flatten l.length m l (le_refl _)

/-- One unfolding step of the promotion loop, phrased through `convGuard`. -/
theorem promoteUsersGo_cons (pf : Bool) (c : List StagingUser)
    (cs : List (List StagingUser)) (tbl : List UserRow) (n : Nat) :
    promoteUsersGo pf (c :: cs) (tbl, n) =
      (if (c.filterMap convGuard).isEmpty then promoteUsersGo pf cs (tbl, n)
       else if pf then Except.error ("database connection error", tbl, n)
       else match usersCreateBatch tbl (c.filterMap convGuard) with
         | Except.error e => Except.error (e, tbl, n)
         | Except.ok (tbl2, m) => promoteUsersGo pf cs (tbl2, n + m)) := rfl

/-- The promotion loop over chunks of fresh convertible rows succeeds,
appends every converted row and reports their count. -/
theorem promoteUsersGo_fresh (cs : List (List StagingUser)) :
    ∀ (tbl : List UserRow) (n : Nat),
      ((tbl ++ cs.flatten.filterMap convGuard).map (fun u => u.id)).Nodup →
      ((tbl ++ cs.flatten.filterMap convGuard).map (fun u => u.email)).Nodup →
      promoteUsersGo false cs (tbl, n) =
        Except.ok (tbl ++ cs.flatten.filterMap convGuard,
          n + (cs.flatten.filterMap convGuard).length) := by
  induction cs with
  | nil => intro tbl n _ _; simp [promoteUsersGo]
  | cons c cs ih =>
      intro tbl n hids hemails
      rw [show (c :: cs).flatten.filterMap convGuard =
            c.filterMap convGuard ++ cs.flatten.filterMap convGuard by
          rw [List.flatten_cons, List.filterMap_append]] at hids hemails ⊢
      rw [promoteUsersGo_cons]
      by_cases hemp : (c.filterMap convGuard).isEmpty
      · rw [if_pos hemp]
        have hnil : c.filterMap convGuard = [] := by
          simpa using hemp
        rw [hnil] at hids hemails ⊢
        simp only [List.nil_append] at hids hemails ⊢
        exact ih tbl n hids hemails
      · rw [if_neg hemp, if_neg (by decide : ¬ false = true)]
        have hidsL : ((tbl ++ c.filterMap convGuard).map (fun u => u.id)).Nodup := by
          rw [← List.append_assoc, List.map_append, List.nodup_append] at hids
          exact hids.1
        have hemailsL :
            ((tbl ++ c.filterMap convGuard).map (fun u => u.email)).Nodup := by
          rw [← List.append_assoc, List.map_append, List.nodup_append] at hemails
          exact hemails.1
        rw [usersCreateBatch_fresh tbl (c.filterMap convGuard) hidsL hemailsL]
        have hidsR := hids
        have hemailsR := hemails
        rw [← List.append_assoc] at hidsR hemailsR
        have hrec := ih (tbl ++ c.filterMap convGuard)
          (n + (c.filterMap convGuard).length) hidsR hemailsR
        show promoteUsersGo false cs
            (tbl ++ c.filterMap convGuard, n + (c.filterMap convGuard).length) = _
        rw [hrec]
        simp [List.append_assoc, Nat.add_assoc]

/-- A validator-clean stream accumulates no validation errors. -/
theorem stagedErrsFrom_clean (k : Nat) (l : List UserImport)
    (h : ∀ u ∈ l, validateUserImport 1 u = []) :
    stagedErrsFrom k (l.map some) = [] := by
  induction l generalizing k with
  | nil => rfl
  | cons u us ih =>
      have hu := (validateUserImport_nil_iff (k + 1) u).mpr (h u (by simp))
      simp only [List.map_cons, stagedErrsFrom, stageUserErrs, hu, List.nil_append]
      exact ih (k + 1) (fun v hv => h v (by simp [hv]))

/-- No staged row of a validator-clean stream carries the parse-error
flag. -/
theorem countP_parse_staged_some (k : Nat) (l : List UserImport)
    (h : ∀ u ∈ l, validateUserImport 1 u = []) :
    (stagedUsersFrom k (l.map some)).countP
      (fun s => s.validationError = some fileParseErrMsg) = 0 := by
  induction l generalizing k with
  | nil => rfl
  | cons u us ih =>
      have hu := (validateUserImport_nil_iff (k + 1) u).mpr (h u (by simp))
      obtain ⟨-, -, -, f4⟩ := stageUser_valid_flags (k + 1) u hu
      simp only [List.map_cons, stagedUsersFrom, List.countP_cons, f4]
      simp only [ih (k + 1) (fun v hv => h v (by simp [hv]))]
      simp

/-- First valid record of the C2 runs. -/
def c2Alice : UserImport :=
  { id := "aaaaaaaa-0000-4000-8000-000000000011", email := "alice2@example.com",
    name := "Alice", role := "admin", active := "", createdAt := "", updatedAt := "" }

/-- Valid record following the malformed line of the C2 runs. -/
def c2Bob : UserImport :=
  { id := "bbbbbbbb-0000-4000-8000-000000000012", email := "bob2@example.com",
    name := "Bob", role := "reader", active := "", createdAt := "", updatedAt := "" }

/-- C2, counterexample: the three-line stream `[alice, malformed, bob]`
completes with ZERO parse-error entries in the `job_errors` journal — not
the one entry the claim requires — although the line after the malformed
one is imported.  `processUser` never appends a parse failure to the
`validationErrors` slice it journals from; the failure is only flagged on
the staging row. -/
theorem parse_error_journal_counterexample :
    (runUsersImport 1000 [] [some c2Alice, none, some c2Bob] false).journal.countP
        (fun e => e.errorCode = "FILE_PARSE_ERROR") = 0 ∧
    ¬ ((runUsersImport 1000 [] [some c2Alice, none, some c2Bob] false).journal.countP
        (fun e => e.errorCode = "FILE_PARSE_ERROR") = 1) ∧
    (runUsersImport 1000 [] [some c2Alice, none, some c2Bob] false).job.status =
      JobStatus.completed ∧
    userRowOfImport c2Bob ∈
      (runUsersImport 1000 [] [some c2Alice, none, some c2Bob] false).table := by
  decide

/-- C2 (amended): a stream with exactly one malformed line among otherwise
valid records (pairwise distinct ids and normalised emails, explicit ids)
produces ZERO parse-error entries in the `job_errors` journal — the parse
failure is recorded only as a `FILE_PARSE_ERROR` flag on that line's
staging row (exactly one such row) and counted into `failed_records` —
while every valid line, including every line after the malformed one,
lands in the target relation and the job completes. -/
theorem parse_error_flagged_not_journaled (bs : Nat) (pre post : List UserImport)
    (hbs : 0 < bs)
    (hpre : ∀ u ∈ pre, validateUserImport 1 u = [])
    (hpost : ∀ u ∈ post, validateUserImport 1 u = [])
    (hid : ∀ u ∈ pre ++ post, u.id ≠ "")
    (hndid : ((pre ++ post).map (fun u => u.id)).Nodup)
    (hndem : ((pre ++ post).map (fun u => strLower (strTrim u.email))).Nodup) :
    (runUsersImport bs [] (pre.map some ++ [none] ++ post.map some)
        false).journal.countP (fun e => e.errorCode = "FILE_PARSE_ERROR") = 0 ∧
    (runUsersImport bs [] (pre.map some ++ [none] ++ post.map some)
        false).journal = [] ∧
    (pass1Users bs (pre.map some ++ [none] ++ post.map some)).staging.countP
        (fun s => s.validationError = some fileParseErrMsg) = 1 ∧
    (runUsersImport bs [] (pre.map some ++ [none] ++ post.map some)
        false).job.status = JobStatus.completed ∧
    (runUsersImport bs [] (pre.map some ++ [none] ++ post.map some)
        false).inserted = pre.length + post.length ∧
    (runUsersImport bs [] (pre.map some ++ [none] ++ post.map some)
        false).job.failedRecords = 1 ∧
    ∀ u ∈ post, userRowOfImport u ∈
      (runUsersImport bs [] (pre.map some ++ [none] ++ post.map some)
        false).table := by
  obtain ⟨hsg, hve⟩ :=
    pass1Users_staging_valErrs bs (pre.map some ++ [none] ++ post.map some)
  have hidpre : ∀ u ∈ pre, u.id ≠ "" := fun u hu => hid u (List.mem_append_left _ hu)
  have hidpost : ∀ u ∈ post, u.id ≠ "" :=
    fun u hu => hid u (List.mem_append_right _ hu)
  have hstage : stagedUsersFrom 0 (pre.map some ++ [none] ++ post.map some) =
      stagedUsersFrom 0 (pre.map some) ++
        ([stageUser (pre.length + 1) none] ++
          stagedUsersFrom (pre.length + 1) (post.map some)) := by
    rw [stagedUsersFrom_append 0 (pre.map some ++ [none]) (post.map some),
        stagedUsersFrom_append 0 (pre.map some) [none]]
    simp [stagedUsersFrom, List.length_map, List.append_assoc]
  have hkeys : ((stagedUsersFrom 0 (pre.map some) ++
      ([stageUser (pre.length + 1) none] ++
        stagedUsersFrom (pre.length + 1) (post.map some))).filterMap
          userDedupKey).Nodup := by
    rw [List.filterMap_append, List.filterMap_append,
        filterMap_key_staged 0 pre hpre,
        filterMap_key_staged (pre.length + 1) post hpost,
        show ([stageUser (pre.length + 1) none]).filterMap userDedupKey = [] by
          simp [stageUser, userDedupKey],
        List.nil_append, ← List.map_append]
    exact hndem
  have hmark : markDupUsers (stagedUsersFrom 0 (pre.map some) ++
      ([stageUser (pre.length + 1) none] ++
        stagedUsersFrom (pre.length + 1) (post.map some))) =
      stagedUsersFrom 0 (pre.map some) ++
        ([stageUser (pre.length + 1) none] ++
          stagedUsersFrom (pre.length + 1) (post.map some)) :=
    markDupsBy_id_of_nodup_keys _ _ _ _ hkeys
  have hsurv : survivingUsers (stagedUsersFrom 0 (pre.map some) ++
      ([stageUser (pre.length + 1) none] ++
        stagedUsersFrom (pre.length + 1) (post.map some))) =
      stagedUsersFrom 0 (pre.map some) ++
        stagedUsersFrom (pre.length + 1) (post.map some) := by
    have happ : ∀ a b : List StagingUser,
        survivingUsers (a ++ b) = survivingUsers a ++ survivingUsers b := by
      intro a b
      simp [survivingUsers, List.filter_append]
    rw [happ, happ, survivingUsers_staged_some 0 pre hpre,
        survivingUsers_staged_some (pre.length + 1) post hpost,
        survivingUsers_staged_none (pre.length + 1), List.nil_append]
  have hconv : (stagedUsersFrom 0 (pre.map some) ++
      stagedUsersFrom (pre.length + 1) (post.map some)).filterMap convGuard =
      (pre ++ post).map userRowOfImport := by
    rw [List.filterMap_append, filterMap_convGuard_staged 0 pre hpre hidpre,
        filterMap_convGuard_staged (pre.length + 1) post hpost hidpost,
        ← List.map_append]
  have hflat := chunksOf_flatten bs hbs (stagedUsersFrom 0 (pre.map some) ++
      stagedUsersFrom (pre.length + 1) (post.map some))
  have hidmap : ((pre ++ post).map userRowOfImport).map (fun u => u.id) =
      (pre ++ post).map (fun u => u.id) := by
    rw [List.map_map]
    rfl
  have hemmap : ((pre ++ post).map userRowOfImport).map (fun u => u.email) =
      (pre ++ post).map (fun u => strLower (strTrim u.email)) := by
    rw [List.map_map]
    rfl
  have hprom := promoteUsersGo_fresh
      (chunksOf bs (stagedUsersFrom 0 (pre.map some) ++
        stagedUsersFrom (pre.length + 1) (post.map some))) [] 0
      (by rw [List.nil_append, hflat, hconv, hidmap]; exact hndid)
      (by rw [List.nil_append, hflat, hconv, hemmap]; exact hndem)
  rw [List.nil_append, hflat, hconv] at hprom
  simp only [List.length_map, List.length_append, Nat.zero_add] at hprom
  have hmid : ∀ k : Nat, stagedErrsFrom k [none] = [] := fun k => rfl
  have herrs : stagedErrsFrom 0 (pre.map some ++ [none] ++ post.map some) = [] := by
    rw [stagedErrsFrom_append, stagedErrsFrom_append,
        stagedErrsFrom_clean 0 pre hpre, hmid,
        stagedErrsFrom_clean _ post hpost]
    simp
  have hcount : (stagedUsersFrom 0 (pre.map some) ++
      ([stageUser (pre.length + 1) none] ++
        stagedUsersFrom (pre.length + 1) (post.map some))).countP
      (fun s => s.validationError = some fileParseErrMsg) = 1 := by
    rw [List.countP_append, List.countP_append,
        countP_parse_staged_some 0 pre hpre,
        countP_parse_staged_some (pre.length + 1) post hpost]
    simp [stageUser, List.countP_cons]
  have htot := pass1Users_total bs (pre.map some ++ [none] ++ post.map some)
  have hlen : (pre.map some ++ [none] ++ post.map some).length =
      pre.length + 1 + post.length := by
    simp only [List.length_append, List.length_map, List.length_cons,
      List.length_nil]
  simp only [runUsersImport]
  rw [markDupUsersExisting_nil, hsg, hstage, hmark, hsurv, hprom, hve, herrs,
    htot, hlen]
  refine ⟨rfl, rfl, hcount, rfl, rfl, ?_, ?_⟩
  · show ((pre.length + 1 + post.length : Nat) : Int) -
        ((pre.length + post.length : Nat) : Int) = 1
    push_cast
    ring
  · intro u hu
    show userRowOfImport u ∈ (pre ++ post).map userRowOfImport
    exact List.mem_map_of_mem _ (List.mem_append_right _ hu)

/-- C2 amended, witness: the stream `[alice, malformed, bob]` with batch
size 1 completes with an empty journal, one flagged staging row, and bob's
row in the target relation. -/
theorem parse_error_flagged_not_journaled_witness :
    (runUsersImport 1 [] ([c2Alice].map some ++ [none] ++ [c2Bob].map some)
        false).journal = [] ∧
    (pass1Users 1 ([c2Alice].map some ++ [none] ++ [c2Bob].map some)).staging.countP
        (fun s => s.validationError = some fileParseErrMsg) = 1 ∧
    (runUsersImport 1 [] ([c2Alice].map some ++ [none] ++ [c2Bob].map some)
        false).job.status = JobStatus.completed ∧
    userRowOfImport c2Bob ∈
      (runUsersImport 1 [] ([c2Alice].map some ++ [none] ++ [c2Bob].map some)
        false).table := by
  obtain ⟨-, h2, h3, h4, -, -, h7⟩ :=
    parse_error_flagged_not_journaled 1 [c2Alice] [c2Bob] (by decide) (by decide)
      (by decide) (by decide) (by decide) (by decide)
  exact ⟨h2, h3, h4, h7 c2Bob (List.mem_singleton.mpr rfl)⟩

/-- Absence of two adjacent dashes. -/
def noTwoDashes : List Char → Bool
  | [] => true
  | [_] => true
  | a :: b :: rest => !(a = '-' && b = '-') && noTwoDashes (b :: rest)

/-- A character of the class `[a-z0-9]` is not a dash. -/
theorem isKebabChar_ne_dash (c : Char) (h : isKebabChar c = true) : c ≠ '-' := by
  intro hc
  subst hc
  simp [isKebabChar] at h

/-- Structure extracted from a successful match of the slug pattern: every
character is `[a-z0-9]` or a dash, no two dashes are adjacent, and when the
matcher still expects a part the first character is `[a-z0-9]`. -/
theorem slugAux_props (l : List Char) :
    ∀ b, slugAux b l = true →
      (∀ c ∈ l, isKebabChar c = true ∨ c = '-') ∧ noTwoDashes l = true ∧
      (b = true → ∀ c, l.head? = some c → isKebabChar c = true) := by
  induction l with
  | nil =>
      intro b _
      refine ⟨by simp, by simp [noTwoDashes], ?_⟩
      intro _ c hc
      simp at hc
  | cons c rest ih =>
      intro b hb
      cases b with
      | true =>
          have hb2 : isKebabChar c = true ∧ slugAux false rest = true := by
            simpa [slugAux, Bool.and_eq_true] using hb
          obtain ⟨hkc, hrest⟩ := hb2
          obtain ⟨ha, hn, _⟩ := ih false hrest
          refine ⟨?_, ?_, ?_⟩
          · intro x hx
            rcases List.mem_cons.mp hx with rfl | hx2
            · exact Or.inl hkc
            · exact ha x hx2
          · cases rest with
            | nil => simp [noTwoDashes]
            | cons d rest2 =>
                simp only [noTwoDashes, Bool.and_eq_true]
                refine ⟨?_, hn⟩
                simp [isKebabChar_ne_dash c hkc]
          · intro _ x hx
            simp only [List.head?_cons, Option.some.injEq] at hx
            subst hx
            exact hkc
      | false =>
          by_cases hc : c = '-'
          · subst hc
            have hrest : slugAux true rest = true := by
              simpa [slugAux] using hb
            obtain ⟨ha, hn, hhead⟩ := ih true hrest
            refine ⟨?_, ?_, ?_⟩
            · intro x hx
              rcases List.mem_cons.mp hx with rfl | hx2
              · exact Or.inr rfl
              · exact ha x hx2
            · cases rest with
              | nil => simp [slugAux] at hrest
              | cons d rest2 =>
                  simp only [noTwoDashes, Bool.and_eq_true]
                  have hd : isKebabChar d = true := hhead rfl d rfl
                  refine ⟨?_, hn⟩
                  simp [(isKebabChar_ne_dash d hd).symm] at *
                  exact fun h => absurd h (isKebabChar_ne_dash d hd)
            · intro hfalse
              simp at hfalse
          · have hb2 : isKebabChar c = true ∧ slugAux false rest = true := by
              simpa [slugAux, hc, Bool.and_eq_true] using hb
            obtain ⟨hkc, hrest⟩ := hb2
            obtain ⟨ha, hn, _⟩ := ih false hrest
            refine ⟨?_, ?_, ?_⟩
            · intro x hx
              rcases List.mem_cons.mp hx with rfl | hx2
              · exact Or.inl hkc
              · exact ha x hx2
            · cases rest with
              | nil => simp [noTwoDashes]
              | cons d rest2 =>
                  simp only [noTwoDashes, Bool.and_eq_true]
                  refine ⟨?_, hn⟩
                  simp [isKebabChar_ne_dash c hkc]
            · intro hfalse
              simp at hfalse

/-- Dropping a prefix by a predicate no character satisfies is the
identity. -/
theorem dropWhile_eq_self_of_none (p : Char → Bool) (l : List Char)
    (h : ∀ c ∈ l, p c = false) : l.dropWhile p = l := by
  cases l with
  | nil => rfl
  | cons c rest => simp [List.dropWhile_cons, h c (List.mem_cons_self c rest)]

/-- Characters of a matched slug are never Go spaces, never upper-case
ASCII letters and never the space character, so trimming, lower-casing and
the space replacement are all the identity on it. -/
theorem slug_chars_inert (c : Char) (h : isKebabChar c = true ∨ c = '-') :
    isGoSpace c = false ∧ goToLowerChar c = c ∧ (if c = ' ' then '-' else c) = c := by
  rcases h with h | rfl
  · have hrange : (97 ≤ c.toNat ∧ c.toNat ≤ 122) ∨ (48 ≤ c.toNat ∧ c.toNat ≤ 57) := by
      simpa [isKebabChar, decide_eq_true_eq] using h
    refine ⟨?_, ?_, ?_⟩
    · rcases hrange with ⟨h1, h2⟩ | ⟨h1, h2⟩ <;> simp [isGoSpace, goSpaceNats] <;> omega
    · simp only [goToLowerChar]
      rw [if_neg]
      omega
    · rw [if_neg]
      intro hc
      subst hc
      simp at hrange
  · refine ⟨by decide, by decide, by decide⟩

/-- Collapsing runs of a character that never occurs is the identity. -/
theorem collapseRuns_id_of_none (p : Char → Bool) (rep : Char) (l : List Char)
    (h : ∀ c ∈ l, p c = false) : collapseRuns p rep l = l := by
  induction l with
  | nil => rfl
  | cons c rest ih =>
      have hc : p c = false := h c (List.mem_cons_self c rest)
      cases rest with
      | nil => simp [collapseRuns, hc]
      | cons d rest2 =>
          have hd : p d = false := h d (by simp)
          have ih2 := ih (fun x hx => h x (List.mem_cons_of_mem c hx))
          simp [collapseRuns, hc, hd, ih2]

/-- Collapsing dash runs is the identity when no two dashes are adjacent. -/
theorem collapseDash_id (l : List Char) (h : noTwoDashes l = true) :
    collapseRuns (fun c => c = '-') '-' l = l := by
  induction l with
  | nil => rfl
  | cons c rest ih =>
      cases rest with
      | nil =>
          by_cases hc : c = '-'
          · subst hc; rfl
          · simp [collapseRuns, hc]
      | cons d rest2 =>
          have hnd : (c = '-' ∧ d = '-') → False := by
            intro ⟨h1, h2⟩
            subst h1; subst h2
            simp [noTwoDashes] at h
          have hrest : noTwoDashes (d :: rest2) = true := by
            simp only [noTwoDashes, Bool.and_eq_true] at h
            exact h.2
          have ih2 := ih hrest
          by_cases hc : c = '-'
          · subst hc
            have hd : d ≠ '-' := fun h2 => hnd ⟨rfl, h2⟩
            simp [collapseRuns, hd, ih2]
          · simp [collapseRuns, hc, ih2]

/-- On a string the slug pattern accepts, both the inline normalisation of
`processArticlesImport` and the normalisation the specification describes
are the identity, hence equal. -/
theorem slug_normalizations_agree (s : String) (h : isValidSlug s = true) :
    codeNormalizeSlug s = s ∧ specNormalizeSlug s = s := by
  obtain ⟨hall, hnd, _⟩ := slugAux_props s.data true h
  have hspace : ∀ c ∈ s.data, isGoSpace c = false :=
    fun c hc => (slug_chars_inert c (hall c hc)).1
  have hlower : goLowerL s.data = s.data := by
    apply List.map_congr_left (g := id) (fun c hc => (slug_chars_inert c (hall c hc)).2.1)
      |>.trans (List.map_id _)
  have htrim : goTrimL s.data = s.data := by
    unfold goTrimL
    rw [dropWhile_eq_self_of_none _ _ hspace]
    rw [dropWhile_eq_self_of_none _ _ (fun c hc => hspace c (List.mem_reverse.mp hc))]
    exact List.reverse_reverse _
  have hrepl : s.data.map (fun c => if c = ' ' then '-' else c) = s.data := by
    apply List.map_congr_left (g := id) (fun c hc => (slug_chars_inert c (hall c hc)).2.2)
      |>.trans (List.map_id _)
  have hnospace2 : ∀ c ∈ s.data, (fun c => decide (c = ' ')) c = false := by
    intro c hc
    simp only [decide_eq_false_iff_not]
    intro hc2
    subst hc2
    rcases hall _ hc with h2 | h2
    · simp [isKebabChar] at h2
    · exact absurd h2 (by decide)
  constructor
  · unfold codeNormalizeSlug
    rw [htrim, hlower, hrepl]
  · unfold specNormalizeSlug
    rw [hlower,
      collapseRuns_id_of_none (fun c => decide (c = ' ')) '-' s.data hnospace2,
      collapseDash_id _ hnd]

/-- From an empty validator output, the slug field is non-empty and the
pattern matched. -/
theorem slug_ok_of_valid_article (row : Nat) (a : ArticleImport)
    (h : validateArticleImport row a = []) :
    a.slug ≠ "" ∧ isValidSlug a.slug = true := by
  simp only [validateArticleImport, List.append_eq_nil] at h
  have hslug := h.1.1.1.1.1.1.1.1.2
  by_cases he : a.slug = ""
  · rw [if_pos he] at hslug
    simp at hslug
  · rw [if_neg he] at hslug
    by_cases hv : isValidSlug a.slug
    · exact ⟨he, hv⟩
    · rw [if_pos (by simpa using hv)] at hslug
      simp at hslug

/-- C6.  For every article record that passes validation, the slug value
written into its staging row equals the specification's normal form — the
input slug lower-cased with runs of spaces and runs of dashes collapsed to
single dashes — because a slug that passed the kebab-case validation is a
fixed point of both the inline code normalisation and the spec normal form;
and the deduplication key (`LOWER(slug)` over the staged value) compares
exactly this normalised value. -/
theorem staged_slug_is_spec_normal_form (row : Nat) (a : ArticleImport)
    (h : validateArticleImport row a = []) :
    (stageArticle row (some a)).slug = some (specNormalizeSlug a.slug) ∧
    articleDedupKey (stageArticle row (some a)) = some (specNormalizeSlug a.slug) := by
  obtain ⟨hne, hv⟩ := slug_ok_of_valid_article row a h
  obtain ⟨hcode, hspec⟩ := slug_normalizations_agree a.slug hv
  have hstage : (stageArticle row (some a)).slug = some (codeNormalizeSlug a.slug) := by
    simp [stageArticle, hne]
  have hlowfix : strLower a.slug = a.slug := by
    obtain ⟨hall, -, -⟩ := slugAux_props a.slug.data true hv
    have : goLowerL a.slug.data = a.slug.data := by
      apply List.map_congr_left (g := id) (fun c hc => (slug_chars_inert c (hall c hc)).2.1)
        |>.trans (List.map_id _)
    simp [strLower, this]
  refine ⟨by rw [hstage, hcode, hspec], ?_⟩
  show (stageArticle row (some a)).slug.map strLower = some (specNormalizeSlug a.slug)
  rw [hstage, hcode]
  simp [hlowfix, hspec]

/-- C6 witness: a concrete valid article is staged with its slug unchanged,
which is exactly the spec normal form. -/
theorem staged_slug_is_spec_normal_form_witness :
    (stageArticle 2 (some
      (⟨"", "intro-to-go-2", "T", "B", "5864905b-ec8c-4fa6-8ba7-545d13f29b4e",
        none, "", "draft"⟩ : ArticleImport))).slug =
      some (specNormalizeSlug "intro-to-go-2") ∧
    articleDedupKey (stageArticle 2 (some
      (⟨"", "intro-to-go-2", "T", "B", "5864905b-ec8c-4fa6-8ba7-545d13f29b4e",
        none, "", "draft"⟩ : ArticleImport))) =
      some (specNormalizeSlug "intro-to-go-2") :=
  staged_slug_is_spec_normal_form 2 _ (by decide)

end BulkImport
